import Mathlib

/-!
Verification development for the diagnostic extraction and classification
subsystem of the neuromansui repository (`neuromansui/prompt_loader.py` and
`neuromansui/main.py`).

The Python code is shallowly embedded: JSON/Python values are modelled by
`JVal`, Python exceptions by `PyErr`, and fallible Python functions return
`Except PyErr _`.  Presentation-only code (rich table rendering, plotly
charts, HTML output) is out of scope and not modelled; the data that those
renderers consume (stats dictionaries, grouped errors, histograms) is
modelled faithfully.
-/

set_option autoImplicit false

/-- A Python/JSON value as produced by `json.loads` and manipulated by the
diagnostic code.  Floating point literals are not part of the modelled JSON
fragment (no claim depends on them); integers are unbounded as in Python. -/
inductive JVal where
  | null
  | bool (b : Bool)
  | int (n : Int)
  /-- A Python `float`, as decoded from a JSON number with a fraction or
  exponent part or from one of the `NaN`/`Infinity`/`-Infinity` constants
  CPython accepts.  The value is carried as its source lexeme: no claim
  consumes float arithmetic or the `str()` rendering of a float, only the
  type-driven behaviour (truthiness, non-subscriptability, absence of
  attributes), which the lexeme determines. -/
  | float (raw : String)
  | str (s : String)
  | arr (xs : List JVal)
  | obj (fields : List (String × JVal))

/-- A Python dictionary with string keys, as decoded from a JSON object.
Keys are unique (the JSON decoder keeps the last binding for a duplicate
key, so the association list it builds has pairwise distinct keys). -/
abbrev PyDict := List (String × JVal)

/-- A Python exception, abstracted to its class and message.  Message texts
are simplified renderings of the CPython ones; no claim quotes them. -/
inductive PyErr where
  | valueError (msg : String)
  | attributeError (msg : String)
  | typeError (msg : String)
  | keyError (msg : String)
  | indexError (msg : String)
deriving Repr, DecidableEq

/-- Decimal digit test. -/
def isDigitCh (c : Char) : Bool := '0' ≤ c ∧ c ≤ '9'

/-- Truthiness of a float from its lexeme: `NaN` and the infinities are
truthy, and a numeric literal is truthy exactly when its mantissa (the part
before any exponent marker) has a nonzero digit — the exponent never turns
zero into nonzero or back. -/
def floatTruthy (raw : String) : Bool :=
  if raw = "NaN" ∨ raw = "Infinity" ∨ raw = "-Infinity" then true
  else (raw.data.takeWhile (fun c => c ≠ 'e' ∧ c ≠ 'E')).any
    (fun c => isDigitCh c ∧ c ≠ '0')

/-- Python truthiness (`bool(x)`) on the modelled values. -/
def pyTruthy : JVal → Bool
  | .null => false
  | .bool b => b
  | .int n => n != 0
  | .float raw => floatTruthy raw
  | .str s => s != ""
  | .arr xs => !xs.isEmpty
  | .obj fs => !fs.isEmpty

mutual

/-- Python `repr` on the modelled values (strings are quoted; containers
render their elements recursively, as CPython does).  A float is rendered
as its source lexeme; CPython's float-to-shortest-decimal formatting is not
modelled because no claim consumes the rendering of a float field. -/
def pyRepr : JVal → String
  | .null => "None"
  | .bool true => "True"
  | .bool false => "False"
  | .int n => toString n
  | .float raw => raw
  | .str s => "'" ++ s ++ "'"
  | .arr xs => "[" ++ pyReprList xs ++ "]"
  | .obj fs => "\x7b" ++ pyReprObj fs ++ "\x7d"

/-- Comma-separated `repr` of list elements. -/
def pyReprList : List JVal → String
  | [] => ""
  | [x] => pyRepr x
  | x :: y :: xs => pyRepr x ++ ", " ++ pyReprList (y :: xs)

/-- Comma-separated `repr` of dictionary items. -/
def pyReprObj : List (String × JVal) → String
  | [] => ""
  | [(k, v)] => "'" ++ k ++ "': " ++ pyRepr v
  | (k, v) :: p :: fs => "'" ++ k ++ "': " ++ pyRepr v ++ ", " ++ pyReprObj (p :: fs)

end

/-- Python `str(x)`: identity on strings, `repr` otherwise. -/
def pyStr : JVal → String
  | .str s => s
  | v => pyRepr v

/-- Python `str.zfill`: left-pad with `'0'` to the requested width, keeping a
leading sign character in front of the inserted zeros. -/
def zfill (s : String) (width : Nat) : String :=
  if width ≤ s.length then s
  else
    match s.data with
    | c :: rest =>
        if c = '+' ∨ c = '-' then
          String.mk (c :: List.replicate (width - s.length) '0' ++ rest)
        else
          String.mk (List.replicate (width - s.length) '0' ++ s.data)
    | [] => String.mk (List.replicate width '0')

/-- Python subscript `x[0]` on the modelled values: first character of a
non-empty string, first element of a non-empty list, `KeyError` on a
JSON-decoded dictionary (its keys are strings, never the integer `0`),
`TypeError` on the non-subscriptable values. -/
def pySubscript0 : JVal → Except PyErr JVal
  | .str s =>
      match s.data with
      | c :: _ => .ok (.str (String.mk [c]))
      | [] => .error (.indexError ("string index out of range"))
  | .arr xs =>
      match xs with
      | x :: _ => .ok x
      | [] => .error (.indexError ("list index out of range"))
  | .obj _ => .error (.keyError ("0"))
  | .null => .error (.typeError ("NoneType object is not subscriptable"))
  | .bool _ => .error (.typeError ("bool object is not subscriptable"))
  | .int _ => .error (.typeError ("int object is not subscriptable"))
  | .float _ => .error (.typeError ("float object is not subscriptable"))

/-- Python `x.get(key, default)` where `x` is expected to be a dictionary:
`AttributeError` when `x` is not a dictionary. -/
def pyGet (v : JVal) (key : String) (dflt : JVal) : Except PyErr JVal :=
  match v with
  | .obj d => .ok ((List.lookup key d).getD dflt)
  | _ => .error (.attributeError ("object has no attribute get"))

/-- The severity-prefix `match` block of `compute_error_code`
(`prompt_loader.py` lines 147-157): `BlockingError`/`NonblockingError` map
to `E`, `Warning` to `W`, `Note` to `I`, `Bug` to `ICE`, and any other value
to `level[0] if level else ""`. -/
def severityOf : JVal → Except PyErr JVal
  | .str s =>
      if s = "BlockingError" ∨ s = "NonblockingError" then .ok (.str "E")
      else if s = "Warning" then .ok (.str "W")
      else if s = "Note" then .ok (.str "I")
      else if s = "Bug" then .ok (.str "ICE")
      else if s = "" then .ok (.str "")
      else pySubscript0 (.str s)
  | v => if pyTruthy v then pySubscript0 v else .ok (.str "")

/-- The body of `compute_error_code` after the four field reads
(`prompt_loader.py` lines 147-165): severity prefix, category padded to 2,
code padded to 3, concatenated as prefix ++ category ++ code, with the
external prefix prepended when truthy. -/
def compute_core (level code_val category_val epfx : JVal) : Except PyErr String := do
  let sev ← severityOf level
  let cat_str := zfill (pyStr category_val) 2
  let code_str := zfill (pyStr code_val) 3
  if pyTruthy epfx then
    pure (pyStr epfx ++ pyStr sev ++ cat_str ++ code_str)
  else
    pure (pyStr sev ++ cat_str ++ code_str)

/-- `compute_error_code` (`prompt_loader.py` lines 121-165).  The argument is
the raw parsed value; the `.get` calls raise `AttributeError` when it is not
a dictionary, exactly as in Python. -/
def compute_error_code (error : JVal) : Except PyErr String := do
  let level ← pyGet error "level" (.str "")
  let code_val ← pyGet error "code" .null
  let category_val ← pyGet error "category" .null
  let epfx ← pyGet error "external_prefix" .null
  compute_core level code_val category_val epfx

example : compute_error_code (.obj [("level", .str "NonblockingError"), ("category", .int 5), ("code", .int 1)]) = .ok ("E05001") := by rfl

example : compute_error_code (.obj [("level", .str "Warning"), ("category", .int 4), ("code", .int 4)]) = .ok ("W04004") := by rfl

/-! ## JSON decoding (model of `json.loads` on the fragment used) -/

/-- Skip JSON whitespace. -/
def jSkipWs : List Char → List Char
  | c :: cs => if c = ' ' ∨ c = '\t' ∨ c = '\n' ∨ c = '\r' then jSkipWs cs else c :: cs
  | [] => []

/-- Hexadecimal digit value. -/
def hexVal (c : Char) : Option Nat :=
  if '0' ≤ c ∧ c ≤ '9' then some (c.toNat - '0'.toNat)
  else if 'a' ≤ c ∧ c ≤ 'f' then some (c.toNat - 'a'.toNat + 10)
  else if 'A' ≤ c ∧ c ≤ 'F' then some (c.toNat - 'A'.toNat + 10)
  else none

/-- Parse the body of a JSON string literal (the opening quote already
consumed), handling the standard escapes; a raw control character is
invalid, as in CPython's default strict mode. -/
def jParseStringBody : Nat → List Char → Except String (String × List Char)
  | 0, _ => .error ("out of fuel")
  | _ + 1, [] => .error ("Unterminated string")
  | fuel + 1, c :: cs =>
    if c = '"' then .ok ("", cs)
    else if c = '\\' then
      match cs with
      | '"' :: r => (jParseStringBody fuel r).map (fun p => (String.mk ['"'] ++ p.1, p.2))
      | '\\' :: r => (jParseStringBody fuel r).map (fun p => (String.mk ['\\'] ++ p.1, p.2))
      | '/' :: r => (jParseStringBody fuel r).map (fun p => ("/" ++ p.1, p.2))
      | 'b' :: r => (jParseStringBody fuel r).map (fun p => (String.mk ['\x08'] ++ p.1, p.2))
      | 'f' :: r => (jParseStringBody fuel r).map (fun p => (String.mk ['\x0C'] ++ p.1, p.2))
      | 'n' :: r => (jParseStringBody fuel r).map (fun p => ("\n" ++ p.1, p.2))
      | 'r' :: r => (jParseStringBody fuel r).map (fun p => ("\r" ++ p.1, p.2))
      | 't' :: r => (jParseStringBody fuel r).map (fun p => ("\t" ++ p.1, p.2))
      | 'u' :: h1 :: h2 :: h3 :: h4 :: r =>
          match hexVal h1, hexVal h2, hexVal h3, hexVal h4 with
          | some a, some b, some cc, some d =>
              let n := ((a * 16 + b) * 16 + cc) * 16 + d
              (jParseStringBody fuel r).map (fun p => (String.mk [Char.ofNat n] ++ p.1, p.2))
          | _, _, _, _ => .error ("Invalid \\u escape")
      | _ => .error ("Invalid \\ escape")
    else if c.toNat < 32 then .error ("Invalid control character")
    else (jParseStringBody fuel cs).map (fun p => (String.mk [c] ++ p.1, p.2))

/-- Value of a run of decimal digits, most-significant digit first. -/
def digitsVal (ds : List Char) : Nat :=
  ds.foldl (fun n c => n * 10 + (c.toNat - '0'.toNat)) 0

/-- The integer part of CPython's JSON number grammar
`(-?(?:0|[1-9]\d*))(\.\d+)?([eE][-+]?\d+)?` (the sign already consumed): a
lone `0`, or a nonzero digit followed by any digit run.  Returns the
matched digits and the rest of the input, so a leading zero is not
absorbed into a longer numeral, exactly as the regex scans. -/
def jIntPart : List Char → Option (List Char × List Char)
  | '0' :: r => some (['0'], r)
  | c :: r =>
      if isDigitCh c then some (c :: r.takeWhile isDigitCh, r.dropWhile isDigitCh)
      else none
  | [] => none

/-- The optional fraction part `(\.\d+)?`: the matched characters (dot
included) and the rest; a dot not followed by a digit matches nothing and
is left in place. -/
def jFracPart (cs : List Char) : List Char × List Char :=
  match cs with
  | '.' :: r =>
      match r.takeWhile isDigitCh with
      | [] => ([], cs)
      | ds => ('.' :: ds, r.dropWhile isDigitCh)
  | _ => ([], cs)

/-- The optional exponent part `([eE][-+]?\d+)?`: the matched characters
and the rest; an exponent marker without digits matches nothing. -/
def jExpPart (cs : List Char) : List Char × List Char :=
  match cs with
  | e :: r =>
      if e = 'e' ∨ e = 'E' then
        match r with
        | s :: r2 =>
            if s = '+' ∨ s = '-' then
              match r2.takeWhile isDigitCh with
              | [] => ([], cs)
              | ds => (e :: s :: ds, r2.dropWhile isDigitCh)
            else
              match r.takeWhile isDigitCh with
              | [] => ([], cs)
              | ds => (e :: ds, r.dropWhile isDigitCh)
        | [] => ([], cs)
      else ([], cs)
  | [] => ([], cs)

/-- CPython's JSON number scan: the longest prefix the number regex
matches.  An integer-only match decodes to a Python `int`; a match with a
fraction or exponent part decodes to a `float`, carried as its lexeme. -/
def jParseNumber (cs : List Char) : Option (JVal × List Char) :=
  let (neg, cs1) := match cs with
    | '-' :: r => (true, r)
    | _ => (false, cs)
  match jIntPart cs1 with
  | none => none
  | some (ds, r1) =>
      let (fr, r2) := jFracPart r1
      let (ex, r3) := jExpPart r2
      if fr.isEmpty ∧ ex.isEmpty then
        some (.int (if neg then -(digitsVal ds : Int) else (digitsVal ds : Int)), r3)
      else
        some (.float (String.mk ((if neg then ['-'] else []) ++ ds ++ fr ++ ex)), r3)

/-- Replace the binding of `k` in a decoded object, keeping its position, or
append it; this is how a Python `dict` treats a duplicate JSON key. -/
def objUpsert (fs : List (String × JVal)) (k : String) (v : JVal) : List (String × JVal) :=
  match fs with
  | [] => [(k, v)]
  | (k', v') :: rest => if k' = k then (k, v) :: rest else (k', v') :: objUpsert rest k v

/-- Parser state for the single fuel-indexed JSON parsing loop: parse one
value, parse an array head or its remaining elements, or parse an object
head or its remaining items. -/
inductive JMode where
  | top
  | arrStart
  | arrElems (acc : List JVal)
  | objStart
  | objItems (acc : List (String × JVal))

/-- Fuel-indexed recursive-descent JSON parser; the fuel passed by
`json_loads` always suffices.  Numbers follow CPython's scanner: integer
literals decode to `int`, literals with a fraction or exponent and the
`NaN`/`Infinity`/`-Infinity` constants decode to `float`. -/
def jParse : Nat → JMode → List Char → Except String (JVal × List Char)
  | 0, _, _ => .error ("out of fuel")
  | fuel + 1, .top, cs =>
    (match jSkipWs cs with
    | [] => .error ("Expecting value")
    | c :: rest =>
      if c = '[' then jParse fuel .arrStart rest
      else if c = '\x7b' then jParse fuel .objStart rest
      else if c = '"' then (jParseStringBody (fuel + 1) rest).map (fun p => (.str p.1, p.2))
      else if c = '-' then
        match rest with
        | 'I' :: 'n' :: 'f' :: 'i' :: 'n' :: 'i' :: 't' :: 'y' :: r =>
            .ok (.float ("-Infinity"), r)
        | _ =>
            match jParseNumber (c :: rest) with
            | some (v, r) => .ok (v, r)
            | none => .error ("Expecting value")
      else if isDigitCh c then
        match jParseNumber (c :: rest) with
        | some (v, r) => .ok (v, r)
        | none => .error ("Expecting value")
      else
        match c, rest with
        | 'n', 'u' :: 'l' :: 'l' :: r => .ok (.null, r)
        | 't', 'r' :: 'u' :: 'e' :: r => .ok (.bool true, r)
        | 'f', 'a' :: 'l' :: 's' :: 'e' :: r => .ok (.bool false, r)
        | 'N', 'a' :: 'N' :: r => .ok (.float ("NaN"), r)
        | 'I', 'n' :: 'f' :: 'i' :: 'n' :: 'i' :: 't' :: 'y' :: r => .ok (.float ("Infinity"), r)
        | _, _ => .error ("Expecting value"))
  | fuel + 1, .arrStart, cs =>
    (match jSkipWs cs with
    | ']' :: r => .ok (.arr [], r)
    | cs' => jParse fuel (.arrElems []) cs')
  | fuel + 1, .arrElems acc, cs => do
    let (v, r) ← jParse fuel .top cs
    match jSkipWs r with
    | ',' :: r2 => jParse fuel (.arrElems (acc ++ [v])) r2
    | ']' :: r2 => .ok (.arr (acc ++ [v]), r2)
    | _ => .error ("Expecting , delimiter")
  | fuel + 1, .objStart, cs =>
    (match jSkipWs cs with
    | '\x7d' :: r => .ok (.obj [], r)
    | cs' => jParse fuel (.objItems []) cs')
  | fuel + 1, .objItems acc, cs =>
    (match jSkipWs cs with
    | '"' :: r => do
        let (k, r1) ← jParseStringBody (fuel + 1) r
        match jSkipWs r1 with
        | ':' :: r2 => do
            let (v, r3) ← jParse fuel .top r2
            match jSkipWs r3 with
            | ',' :: r4 => jParse fuel (.objItems (objUpsert acc k v)) r4
            | '\x7d' :: r4 => .ok (.obj (objUpsert acc k v), r4)
            | _ => .error ("Expecting , delimiter")
        | _ => .error ("Expecting : delimiter")
    | _ => .error ("Expecting property name"))

/-- Model of Python `json.loads` on the modelled JSON fragment. -/
def json_loads (s : String) : Except String JVal := do
  let (v, rest) ← jParse (4 * s.length + 8) .top s.data
  match jSkipWs rest with
  | [] => .ok v
  | _ => .error ("Extra data")

example : json_loads ("[1]") = .ok (.arr [.int 1]) := by rfl
example : json_loads (" [1, -25, \"ab\", null, true ] ") =
    .ok (.arr [.int 1, .int (-25), .str "ab", .null, .bool true]) := by rfl
example : json_loads ("[\x7b\"a\": 1, \"b\": \"x\"\x7d]") =
    .ok (.arr [.obj [("a", .int 1), ("b", .str "x")]]) := by rfl
example : (json_loads ("[1,")).isOk = false := by rfl
example : json_loads ("[1.5]") = .ok (.arr [.float ("1.5")]) := by rfl
example : json_loads ("[-0.25e+2, 3E7, NaN, Infinity, -Infinity]") =
    .ok (.arr [.float ("-0.25e+2"), .float ("3E7"), .float ("NaN"),
               .float ("Infinity"), .float ("-Infinity")]) := by rfl
example : (json_loads ("[01]")).isOk = false := by rfl
example : (json_loads ("[1.]")).isOk = false := by rfl
example : (json_loads ("[1e]")).isOk = false := by rfl
example : json_loads ("[1e5, 0.0]") = .ok (.arr [.float ("1e5"), .float ("0.0")]) := by rfl
example : pyTruthy (.float ("0.0")) = false ∧ pyTruthy (.float ("-0.00e10")) = false ∧
    pyTruthy (.float ("1.5")) = true ∧ pyTruthy (.float ("NaN")) = true := by
  refine ⟨rfl, rfl, rfl, rfl⟩

/-! ## Locating the diagnostic payload (model of the regex search) -/

/-- Characters strictly before the first `']'`, if one occurs. -/
def upToClose : List Char → Option (List Char)
  | [] => none
  | c :: rest => if c = ']' then some [] else (upToClose rest).map (c :: ·)

/-- Model of `re.search(r"(\[.*?\])", text, re.DOTALL)`: the match starts at
the first `'['` that is followed by some `']'` (leftmost match) and ends at
the first such `']'` (lazy quantifier); when the first `'['` in the text has
no `']'` after it, no later one has either, so there is no match. -/
def findArrayRegionAux : List Char → Option (List Char)
  | [] => none
  | c :: rest =>
      if c = '[' then (upToClose rest).map (fun mid => '[' :: (mid ++ [']']))
      else findArrayRegionAux rest

/-- The delimited array-like region located in the raw compiler output. -/
def findArrayRegion (s : String) : Option String :=
  (findArrayRegionAux s.data).map String.mk

/-- Whether the text contains a `'['` with a later `']'` — the condition for
the payload-locating regex to match at all. -/
def hasArrayRegion (s : String) : Prop :=
  ∃ l1 l2 l3, s.data = l1 ++ '[' :: (l2 ++ ']' :: l3)

example : findArrayRegion ("xx[1, 2] tail [3]") = some ("[1, 2]") := by rfl
example : findArrayRegion ("no payload here") = none := by rfl
example : findArrayRegion ("] before [ after") = none := by rfl

/-! ## Grouping (model of `collect_errors`, `prompt_loader.py` 167-196) -/

/-- Grouped diagnostics: classification code to the list of error objects,
in first-seen key order (a Python `defaultdict` preserves insertion order). -/
abbrev Grouping := List (String × List JVal)

/-- `grouped_errors[error_code].append(error)`: append to the existing group
of the code, or open a new group at the end. -/
def appendGroup (g : Grouping) (c : String) (e : JVal) : Grouping :=
  match g with
  | [] => [(c, [e])]
  | (c', es) :: rest =>
      if c' = c then (c', es ++ [e]) :: rest else (c', es) :: appendGroup rest c e

/-- Python `for` iteration over a decoded JSON value. -/
def pyIterList : JVal → Except PyErr (List JVal)
  | .arr xs => .ok xs
  | .str s => .ok (s.data.map fun c => .str (String.mk [c]))
  | .obj fs => .ok (fs.map fun p => .str p.1)
  | .null => .error (.typeError ("NoneType object is not iterable"))
  | .bool _ => .error (.typeError ("bool object is not iterable"))
  | .int _ => .error (.typeError ("int object is not iterable"))
  | .float _ => .error (.typeError ("float object is not iterable"))

/-- The grouping loop of `collect_errors` over the decoded list: classify
each element and append it to its group; a non-dictionary element makes
`compute_error_code` raise, and that exception propagates. -/
def groupLoop : Grouping → List JVal → Except PyErr Grouping
  | g, [] => .ok g
  | g, e :: es => do
      let c ← compute_error_code e
      groupLoop (appendGroup g c e) es

/-- Grouping starting from the empty `defaultdict`. -/
def groupAll (es : List JVal) : Except PyErr Grouping :=
  groupLoop [] es

/-- `collect_errors` (`prompt_loader.py` lines 167-196): locate the array
region, decode it, group the records by computed code.  The two `raise
ValueError` sites are the `.valueError` results; any other exception class
propagates from the loop body untouched. -/
def collect_errors (compiler_output : String) : Except PyErr Grouping :=
  match findArrayRegion compiler_output with
  | none => .error (.valueError ("No JSON array found in the compiler output."))
  | some json_str =>
    match json_loads json_str with
    | .error e => .error (.valueError ("Error parsing JSON: " ++ e))
    | .ok v => do
        let es ← pyIterList v
        groupAll es

example :
    collect_errors ("BUILDING X\n[\x7b\"level\": \"Warning\", \"category\": 4, \"code\": 2\x7d]\nFailed") =
      .ok [("W04002", [.obj [("level", .str "Warning"), ("category", .int 4), ("code", .int 2)]])] := by
  rfl

example :
    collect_errors ("[1]") = .error (.attributeError ("object has no attribute get")) := by rfl

example :
    collect_errors ("nothing structured") =
      .error (.valueError ("No JSON array found in the compiler output.")) := by rfl

example :
    collect_errors ("[oops]") = .error (.valueError ("Error parsing JSON: Expecting value")) := by rfl

example :
    collect_errors ("[\x7b\"level\": 0.0\x7d]") =
      .ok [("NoneNone", [.obj [("level", .float ("0.0"))]])] := by rfl

example :
    collect_errors ("[\x7b\"level\": 2.5\x7d]") =
      .error (.typeError ("float object is not subscriptable")) := by rfl

/-! ## Classifier claims (C1, C7, C8) -/

/-- `compute_error_code` applied to a dictionary reads exactly the four
fields `level`, `code`, `category`, `external_prefix` (with the defaults of
the `.get` calls) and hands them to the classification core. -/
theorem compute_error_code_obj (d : PyDict) :
    compute_error_code (.obj d) =
      compute_core ((List.lookup "level" d).getD (.str ""))
        ((List.lookup "code" d).getD .null)
        ((List.lookup "category" d).getD .null)
        ((List.lookup "external_prefix" d).getD .null) := rfl

/-- Claim C1: the claim (following the spec and the repository test suite)
says the classifier emits severity prefix, then the numeric code zero-padded
to 2 digits, then the category zero-padded to 3 digits, maps
NonblockingError to `N`, and prepends `"Lint "` when code is 4 and the
severity is Warning, so that the two table rows give `"N01005"` and
`"Lint W04004"`.  The classifier in the source instead pads the category to
2 and the code to 3, puts the category first, maps NonblockingError to `E`,
and has no `"Lint"` special case: the same records classify to `"E05001"`
and `"W04004"` (and Warning/code 4/category 1 to `"W01004"`, not
`"Lint W04001"`). -/
theorem c1_classifier_disagrees_with_spec :
    compute_error_code (.obj [("level", .str "NonblockingError"), ("category", .int 5), ("code", .int 1)]) = .ok ("E05001") ∧
    compute_error_code (.obj [("level", .str "NonblockingError"), ("category", .int 5), ("code", .int 1)]) ≠ .ok ("N01005") ∧
    compute_error_code (.obj [("level", .str "Warning"), ("category", .int 4), ("code", .int 4)]) = .ok ("W04004") ∧
    compute_error_code (.obj [("level", .str "Warning"), ("category", .int 4), ("code", .int 4)]) ≠ .ok ("Lint W04004") ∧
    compute_error_code (.obj [("level", .str "Warning"), ("category", .int 1), ("code", .int 4)]) = .ok ("W01004") := by
  refine ⟨rfl, ?_, rfl, ?_, rfl⟩ <;> intro h <;>
    exact absurd (Except.ok.inj h) (by decide)

/-- A non-empty string has a head character. -/
theorem data_of_ne_empty {s : String} (h : s ≠ "") : ∃ c cs, s.data = c :: cs := by
  cases s with
  | mk data =>
      cases data with
      | nil => exact absurd rfl h
      | cons c cs => exact ⟨c, cs, rfl⟩

/-- Every string severity gets a string prefix without an exception. -/
theorem severityOf_str_ok (s : String) : ∃ t, severityOf (.str s) = .ok (.str t) := by
  unfold severityOf
  by_cases h1 : s = "BlockingError" ∨ s = "NonblockingError"
  · exact ⟨"E", by simp [h1]⟩
  by_cases h2 : s = "Warning"
  · exact ⟨"W", by simp [h1, h2]⟩
  by_cases h3 : s = "Note"
  · exact ⟨"I", by simp [h1, h2, h3]⟩
  by_cases h4 : s = "Bug"
  · exact ⟨"ICE", by simp [h1, h2, h3, h4]⟩
  by_cases h5 : s = ""
  · exact ⟨"", by simp [h1, h2, h3, h4, h5]⟩
  obtain ⟨c, cs, hdata⟩ := data_of_ne_empty h5
  exact ⟨String.mk [c], by simp [h1, h2, h3, h4, h5, pySubscript0, hdata]⟩

/-- Claim C7 (counterexample): the classifier is not total on arbitrary
records — a record whose `level` value is the number `5` makes the fallback
`level[0]` raise `TypeError`, since the wildcard arm subscripts any truthy
non-string value. -/
theorem c7_nonstring_severity_raises :
    compute_error_code (.obj [("level", .int 5), ("category", .int 5), ("code", .int 1)]) =
      .error (.typeError ("int object is not subscriptable")) := rfl

/-- Claim C7 (amended): for every record whose severity field is absent or a
string — including unknown, empty, and missing values, and arbitrary
(missing or non-numeric) `code`/`category` fields — the classifier returns a
string without raising; an unknown non-empty severity contributes its first
character, an empty severity the empty prefix, and missing `code`/`category`
are rendered as `"None"` (already at least as wide as the pad widths). -/
theorem c7_total_for_string_severities :
    (∀ d : PyDict,
      (∀ v, List.lookup "level" d = some v → ∃ s, v = JVal.str s) →
      ∃ s, compute_error_code (.obj d) = .ok s) ∧
    (∀ c cs, (String.mk (c :: cs)) ∉ (["BlockingError", "NonblockingError", "Warning", "Note", "Bug"] : List String) →
      severityOf (.str (String.mk (c :: cs))) = .ok (.str (String.mk [c]))) ∧
    (severityOf (.str "") = .ok (.str "")) ∧
    (∀ d : PyDict,
      (∀ v, List.lookup "level" d = some v → ∃ s, v = JVal.str s) →
      List.lookup "code" d = none → List.lookup "category" d = none →
      List.lookup "external_prefix" d = none →
      ∃ pre, compute_error_code (.obj d) = .ok (pre ++ "None" ++ "None")) := by
  have hstr : ∀ d : PyDict,
      (∀ v, List.lookup "level" d = some v → ∃ s, v = JVal.str s) →
      ∃ lv, (List.lookup "level" d).getD (.str "") = JVal.str lv := by
    intro d h
    cases hl : List.lookup "level" d with
    | none => exact ⟨"", by simp [hl]⟩
    | some v =>
        obtain ⟨s, hs⟩ := h v hl
        exact ⟨s, by simp [hl, hs]⟩
  refine ⟨?_, ?_, ?_, ?_⟩
  · intro d h
    obtain ⟨lv, hlv⟩ := hstr d h
    obtain ⟨t, ht⟩ := severityOf_str_ok lv
    rw [compute_error_code_obj, hlv]
    unfold compute_core
    rw [ht]
    cases hpt : pyTruthy ((List.lookup "external_prefix" d).getD .null) <;> simp [hpt]
  · intro c cs hmem
    simp only [List.mem_cons, List.not_mem_nil, or_false, not_or] at hmem
    obtain ⟨n1, n2, n3, n4, n5⟩ := hmem
    have hne : String.mk (c :: cs) ≠ "" := by
      intro h
      exact absurd (congrArg String.data h) (by simp)
    unfold severityOf
    simp [n1, n2, n3, n4, n5, hne, pySubscript0]
  · rfl
  · intro d h hcode hcat hep
    obtain ⟨lv, hlv⟩ := hstr d h
    obtain ⟨t, ht⟩ := severityOf_str_ok lv
    refine ⟨t, ?_⟩
    rw [compute_error_code_obj, hlv, hcode, hcat, hep]
    unfold compute_core
    rw [ht]
    rfl

/-- Claim C7 (witness): an unknown severity string `"Zap"` maps to its first
character, and with `code`/`category`/`external_prefix` all missing the full
classification is `"ZNoneNone"`. -/
theorem c7_total_for_string_severities_witness :
    severityOf (.str ("Zap")) = .ok (.str ("Z")) ∧
    compute_error_code (.obj [("level", .str "Zap")]) = .ok ("ZNoneNone") :=
  ⟨c7_total_for_string_severities.2.1 'Z' ['a', 'p'] (by decide), rfl⟩

/-- Claim C8: classification is deterministic (the model is a pure function,
so two calls agree definitionally) and depends only on the four fields
`level`, `code`, `category` and `external_prefix`: two records that agree on
those lookups receive the same classification code, whatever their other
fields. -/
theorem c8_classification_deterministic :
    (∀ e : JVal, compute_error_code e = compute_error_code e) ∧
    (∀ d1 d2 : PyDict,
      List.lookup "level" d1 = List.lookup "level" d2 →
      List.lookup "code" d1 = List.lookup "code" d2 →
      List.lookup "category" d1 = List.lookup "category" d2 →
      List.lookup "external_prefix" d1 = List.lookup "external_prefix" d2 →
      compute_error_code (.obj d1) = compute_error_code (.obj d2)) := by
  refine ⟨fun _ => rfl, fun d1 d2 h1 h2 h3 h4 => ?_⟩
  rw [compute_error_code_obj, compute_error_code_obj, h1, h2, h3, h4]

/-- Claim C8 (witness): two records equal on the four classified fields but
with different `msg` and `file` fields classify identically. -/
theorem c8_classification_deterministic_witness :
    compute_error_code (.obj [("level", .str "Warning"), ("category", .int 4), ("code", .int 2), ("msg", .str "unnecessary loop")]) =
      compute_error_code (.obj [("level", .str "Warning"), ("category", .int 4), ("code", .int 2), ("msg", .str "other"), ("file", .str "a.move")]) :=
  c8_classification_deterministic.2 _ _ rfl rfl rfl rfl

/-! ## Grouping properties (C3) -/

/-- The classification code of a record, when the classifier succeeds. -/
def codeOf (e : JVal) : Option String := (compute_error_code e).toOption

/-- Whether a record classifies to the given code. -/
def hasCode (c : String) (e : JVal) : Bool :=
  match compute_error_code e with
  | .ok c' => c' == c
  | .error _ => false

/-- Insertion-order deduplication: keeps the first occurrence of each
element, in order. -/
def dedupFirst (l : List String) : List String :=
  l.foldl (fun acc c => if c ∈ acc then acc else acc ++ [c]) []

theorem hasCode_self {e : JVal} {c : String} (h : compute_error_code e = .ok c) :
    hasCode c e = true := by
  simp [hasCode, h]

theorem hasCode_other {e : JVal} {c c0 : String} (h : compute_error_code e = .ok c)
    (hne : c0 ≠ c) : hasCode c0 e = false := by
  simp [hasCode, h]
  exact fun hh => absurd hh.symm hne

theorem codeOf_eq_some {e : JVal} {c : String} (h : compute_error_code e = .ok c) :
    codeOf e = some c := by
  rw [codeOf, h]
  rfl

theorem mem_foldl_dedup (l : List String) (acc : List String) (a : String) :
    a ∈ l.foldl (fun acc c => if c ∈ acc then acc else acc ++ [c]) acc ↔ a ∈ acc ∨ a ∈ l := by
  induction l generalizing acc with
  | nil => simp
  | cons c l ih =>
      rw [List.foldl_cons, ih]
      by_cases hc : c ∈ acc
      · simp only [hc, if_true, List.mem_cons]
        constructor
        · rintro (h | h)
          · exact Or.inl h
          · exact Or.inr (Or.inr h)
        · rintro (h | h | h)
          · exact Or.inl h
          · exact Or.inl (h ▸ hc)
          · exact Or.inr h
      · simp only [hc, if_false, List.mem_append, List.mem_singleton, List.mem_cons]
        tauto

theorem mem_dedupFirst (l : List String) (a : String) : a ∈ dedupFirst l ↔ a ∈ l := by
  rw [dedupFirst, mem_foldl_dedup]
  simp

theorem dedupFirst_snoc (l : List String) (c : String) :
    dedupFirst (l ++ [c]) =
      if c ∈ dedupFirst l then dedupFirst l else dedupFirst l ++ [c] := by
  simp [dedupFirst, List.foldl_append]

theorem appendGroup_map_fst (g : Grouping) (c : String) (e : JVal) :
    (appendGroup g c e).map Prod.fst =
      if c ∈ g.map Prod.fst then g.map Prod.fst else g.map Prod.fst ++ [c] := by
  induction g with
  | nil => simp [appendGroup]
  | cons p rest ih =>
      obtain ⟨c', es'⟩ := p
      by_cases hc : c' = c
      · subst hc
        simp [appendGroup]
      · by_cases hm : c ∈ rest.map Prod.fst <;>
          simp [appendGroup, hc, ih, hm, Ne.symm hc]

theorem appendGroup_sum (g : Grouping) (c : String) (e : JVal) :
    ((appendGroup g c e).map fun q => q.2.length).sum =
      ((g.map fun q => q.2.length).sum) + 1 := by
  induction g with
  | nil => simp [appendGroup]
  | cons p rest ih =>
      obtain ⟨c', es'⟩ := p
      by_cases hc : c' = c <;> simp [appendGroup, hc, ih] <;> omega

theorem code_of_hasCode {y : JVal} {c : String} (h : hasCode c y = true) :
    compute_error_code y = .ok c := by
  unfold hasCode at h
  cases hce : compute_error_code y with
  | ok c' =>
      rw [hce] at h
      simp only [beq_iff_eq] at h
      rw [h]
  | error err =>
      rw [hce] at h
      simp at h

theorem appendGroup_filter_inv (p : List JVal) (e : JVal) (c : String)
    (hce : compute_error_code e = .ok c) :
    ∀ g : Grouping,
      (g.map Prod.fst).Nodup →
      (∀ c0 es0, (c0, es0) ∈ g → es0 = p.filter (fun x => hasCode c0 x)) →
      (c ∉ g.map Prod.fst → p.filter (fun x => hasCode c x) = []) →
      ∀ c0 es0, (c0, es0) ∈ appendGroup g c e →
        es0 = (p ++ [e]).filter (fun x => hasCode c0 x) := by
  intro g
  induction g with
  | nil =>
      intro _ _ hnew c0 es0 hmem
      have heq : (c0, es0) = (c, [e]) := List.mem_singleton.mp (by simpa [appendGroup] using hmem)
      simp only [Prod.mk.injEq] at heq
      obtain ⟨ha, hb⟩ := heq
      rw [ha, hb, List.filter_append, hnew (by simp)]
      simp [hasCode_self hce]
  | cons q rest ih =>
      obtain ⟨ck, esk⟩ := q
      intro hnd h1 hnew c0 es0 hmem
      by_cases hck : ck = c
      · rw [show appendGroup ((ck, esk) :: rest) c e = (ck, esk ++ [e]) :: rest from by
              simp [appendGroup, hck]] at hmem
        rcases List.mem_cons.mp hmem with heq | htail
        · simp only [Prod.mk.injEq] at heq
          obtain ⟨ha, hb⟩ := heq
          have hcke : hasCode ck e = true := by rw [hck]; exact hasCode_self hce
          rw [ha, hb, List.filter_append, h1 ck esk (List.mem_cons_self _ _)]
          simp [hcke]
        · have hc0ne : c0 ≠ ck := by
            intro hh
            rw [hh] at htail
            exact (List.nodup_cons.mp hnd).1 (List.mem_map.mpr ⟨(ck, es0), htail, rfl⟩)
          have hc0c : c0 ≠ c := by rw [← hck]; exact hc0ne
          rw [List.filter_append, h1 c0 es0 (List.mem_cons_of_mem _ htail)]
          simp [hasCode_other hce hc0c]
      · rw [show appendGroup ((ck, esk) :: rest) c e = (ck, esk) :: appendGroup rest c e from by
              simp [appendGroup, hck]] at hmem
        rcases List.mem_cons.mp hmem with heq | htail
        · simp only [Prod.mk.injEq] at heq
          obtain ⟨ha, hb⟩ := heq
          have hckf : hasCode ck e = false := hasCode_other hce hck
          rw [ha, hb, List.filter_append, h1 ck esk (List.mem_cons_self _ _)]
          simp [hckf]
        · refine ih (List.nodup_cons.mp hnd).2
            (fun c1 es1 hm => h1 c1 es1 (List.mem_cons_of_mem _ hm)) ?_ c0 es0 htail
          intro hcnot
          refine hnew ?_
          simp only [List.map_cons, List.mem_cons]
          rintro (hh | hh)
          · exact hck hh.symm
          · exact hcnot hh

/-- Invariant of the grouping loop: after processing the prefix `p`, the
accumulated dictionary has pairwise-distinct keys in first-seen order of the
codes of `p`, each group is the stable filter of `p` by its code, the group
sizes add up to the length of `p`, and every processed record classified
without raising. -/
def GroupInv (p : List JVal) (g : Grouping) : Prop :=
  (∀ c0 es0, (c0, es0) ∈ g → es0 = p.filter (fun x => hasCode c0 x)) ∧
  (g.map Prod.fst).Nodup ∧
  g.map Prod.fst = dedupFirst (p.filterMap codeOf) ∧
  ((g.map fun q => q.2.length).sum = p.length) ∧
  (∀ e ∈ p, ∃ c0, compute_error_code e = .ok c0)

theorem GroupInv_step {p : List JVal} {g : Grouping} {e : JVal} {c : String}
    (hce : compute_error_code e = .ok c) (hinv : GroupInv p g) :
    GroupInv (p ++ [e]) (appendGroup g c e) := by
  obtain ⟨h1, h2, h3, h4, h5⟩ := hinv
  have hnew : c ∉ g.map Prod.fst → p.filter (fun x => hasCode c x) = [] := by
    intro hcnot
    cases hf : p.filter (fun x => hasCode c x) with
    | nil => rfl
    | cons y ys =>
        exfalso
        have hy : y ∈ p.filter (fun x => hasCode c x) := by rw [hf]; simp
        have hyp : y ∈ p := List.mem_of_mem_filter hy
        have hyc : hasCode c y = true := List.of_mem_filter hy
        have : c ∈ p.filterMap codeOf :=
          List.mem_filterMap.mpr ⟨y, hyp, codeOf_eq_some (code_of_hasCode hyc)⟩
        rw [← mem_dedupFirst, ← h3] at this
        exact hcnot this
  refine ⟨appendGroup_filter_inv p e c hce g h2 h1 hnew, ?_, ?_, ?_, ?_⟩
  · rw [appendGroup_map_fst]
    by_cases hm : c ∈ g.map Prod.fst
    · simpa [hm] using h2
    · simp [hm, List.nodup_append, h2]
  · rw [appendGroup_map_fst, List.filterMap_append]
    have : List.filterMap codeOf [e] = [c] := by simp [codeOf_eq_some hce]
    rw [this, dedupFirst_snoc, h3]
  · rw [appendGroup_sum, h4]
    simp
  · intro x hx
    rcases List.mem_append.mp hx with hx | hx
    · exact h5 x hx
    · simp only [List.mem_singleton] at hx
      subst hx
      exact ⟨c, hce⟩

theorem groupLoop_inv :
    ∀ (es p : List JVal) (g res : Grouping),
      groupLoop g es = .ok res → GroupInv p g → GroupInv (p ++ es) res := by
  intro es
  induction es with
  | nil =>
      intro p g res h hinv
      simp only [groupLoop, Except.ok.injEq] at h
      subst h
      simpa using hinv
  | cons e es ih =>
      intro p g res h hinv
      rw [groupLoop] at h
      cases hce : compute_error_code e with
      | error err =>
          rw [hce] at h
          exact Except.noConfusion h
      | ok c =>
          rw [hce] at h
          have h' : groupLoop (appendGroup g c e) es = .ok res := h
          have hinv' := GroupInv_step hce hinv
          have := ih (p ++ [e]) (appendGroup g c e) res h' hinv'
          simpa using this

/-- Claim C3: grouping by classification code drops and deduplicates
nothing.  For every record sequence that groups without raising: each group
is exactly the stable filter of the input by its code (so members keep
extraction order and repeated identical records all appear), keys are
pairwise distinct and listed in first-seen order of the codes, the group
sizes sum to the input length, and every record's code owns a group — hence
every record lands in exactly one group. -/
theorem c3_grouping_stable_no_drop :
    ∀ (ds : List JVal) (g : Grouping), groupAll ds = .ok g →
      (∀ c es, (c, es) ∈ g → es = ds.filter (fun e => hasCode c e)) ∧
      (g.map Prod.fst).Nodup ∧
      g.map Prod.fst = dedupFirst (ds.filterMap codeOf) ∧
      ((g.map fun q => q.2.length).sum = ds.length) ∧
      (∀ e ∈ ds, ∀ c, compute_error_code e = .ok c → c ∈ g.map Prod.fst) := by
  intro ds g h
  have hinv0 : GroupInv [] [] := ⟨by simp, by simp, rfl, rfl, by simp⟩
  have hres := groupLoop_inv ds [] [] g h hinv0
  simp only [List.nil_append] at hres
  obtain ⟨h1, h2, h3, h4, h5⟩ := hres
  refine ⟨h1, h2, h3, h4, ?_⟩
  intro e he c hce
  rw [h3, mem_dedupFirst]
  exact List.mem_filterMap.mpr ⟨e, he, codeOf_eq_some hce⟩

/-- A sample NonblockingError record (category 5, code 1), as in the
repository's test payload. -/
def nbeRec : JVal :=
  .obj [("level", .str "NonblockingError"), ("category", .int 5), ("code", .int 1),
        ("msg", .str "ability constraint not satisfied")]

/-- Claim C3 (witness): four identical records classifying to `"E05001"`
form a single group of length exactly 4, equal to the stable filter of the
input. -/
theorem c3_grouping_stable_no_drop_witness :
    groupAll [nbeRec, nbeRec, nbeRec, nbeRec] = .ok [("E05001", [nbeRec, nbeRec, nbeRec, nbeRec])] ∧
    [nbeRec, nbeRec, nbeRec, nbeRec] =
      [nbeRec, nbeRec, nbeRec, nbeRec].filter (fun e => hasCode ("E05001") e) ∧
    ([nbeRec, nbeRec, nbeRec, nbeRec] : List JVal).length = 4 :=
  ⟨rfl,
   (c3_grouping_stable_no_drop [nbeRec, nbeRec, nbeRec, nbeRec]
      [("E05001", [nbeRec, nbeRec, nbeRec, nbeRec])] rfl).1 ("E05001")
      [nbeRec, nbeRec, nbeRec, nbeRec] (List.mem_singleton.mpr rfl),
   rfl⟩

/-! ## Extraction failure cases (C2) -/

theorem upToClose_isSome_iff (cs : List Char) : (upToClose cs).isSome ↔ ']' ∈ cs := by
  induction cs with
  | nil => simp [upToClose]
  | cons c rest ih =>
      by_cases hc : c = ']'
      · simp [upToClose, hc]
      · simp [upToClose, hc, ih, Ne.symm hc]

theorem findArrayRegionAux_isSome_iff (cs : List Char) :
    (findArrayRegionAux cs).isSome ↔ ∃ l1 l2 l3, cs = l1 ++ '[' :: (l2 ++ ']' :: l3) := by
  induction cs with
  | nil => simp [findArrayRegionAux]
  | cons c rest ih =>
      by_cases hc : c = '['
      · subst hc
        have hred : findArrayRegionAux ('[' :: rest) =
            (upToClose rest).map (fun mid => '[' :: (mid ++ [']'])) := by
          simp [findArrayRegionAux]
        have hiso : ((upToClose rest).map (fun mid => '[' :: (mid ++ [']']))).isSome =
            (upToClose rest).isSome := by
          cases upToClose rest <;> rfl
        rw [hred, hiso, upToClose_isSome_iff]
        constructor
        · intro hmem
          obtain ⟨l2, l3, hsplit⟩ := List.append_of_mem hmem
          exact ⟨[], l2, l3, by simp [hsplit]⟩
        · rintro ⟨l1, l2, l3, hsplit⟩
          cases l1 with
          | nil =>
              injection hsplit with h1 h2
              rw [h2]
              simp
          | cons a l1 =>
              injection hsplit with h1 h2
              rw [h2]
              simp
      · simp only [findArrayRegionAux, if_neg hc]
        rw [ih]
        constructor
        · rintro ⟨l1, l2, l3, hsplit⟩
          exact ⟨c :: l1, l2, l3, by simp [hsplit]⟩
        · rintro ⟨l1, l2, l3, hsplit⟩
          cases l1 with
          | nil =>
              injection hsplit with h1 h2
              exact absurd h1 hc
          | cons a l1 =>
              injection hsplit with h1 h2
              exact ⟨l1, l2, l3, h2⟩

theorem findArrayRegion_none_iff (s : String) :
    findArrayRegion s = none ↔ ¬ hasArrayRegion s := by
  unfold findArrayRegion hasArrayRegion
  rw [← findArrayRegionAux_isSome_iff]
  cases findArrayRegionAux s.data <;> simp

/-- The malformed-payload message never collides with the missing-payload
message (they start with different characters). -/
theorem parse_msg_ne (m : String) :
    ("Error parsing JSON: " ++ m) ≠ "No JSON array found in the compiler output." := by
  intro h
  have h1 := congrArg String.data h
  rw [String.data_append] at h1
  have h2 := congrArg List.head? h1
  simp at h2

theorem pySubscript0_no_valueError (v : JVal) (m : String) :
    pySubscript0 v ≠ .error (.valueError m) := by
  cases v with
  | str s => cases hd : s.data <;> simp [pySubscript0, hd]
  | arr xs => cases xs <;> simp [pySubscript0]
  | null => simp [pySubscript0]
  | bool b => simp [pySubscript0]
  | int n => simp [pySubscript0]
  | float raw => simp [pySubscript0]
  | obj fs => simp [pySubscript0]

theorem severityOf_no_valueError (v : JVal) (m : String) :
    severityOf v ≠ .error (.valueError m) := by
  have hsub := pySubscript0_no_valueError v m
  cases v with
  | str s =>
      simp only [severityOf]
      split_ifs <;> first
        | exact hsub
        | simp
  | null => simp [severityOf, pyTruthy]
  | bool b =>
      simp only [severityOf]
      by_cases hb : pyTruthy (.bool b)
      · simpa [hb] using hsub
      · simp [hb]
  | int n =>
      simp only [severityOf]
      by_cases hb : pyTruthy (.int n)
      · simpa [hb] using hsub
      · simp [hb]
  | float raw =>
      simp only [severityOf]
      by_cases hb : pyTruthy (.float raw)
      · simpa [hb] using hsub
      · simp [hb]
  | arr xs =>
      simp only [severityOf]
      by_cases hb : pyTruthy (.arr xs)
      · simpa [hb] using hsub
      · simp [hb]
  | obj fs =>
      simp only [severityOf]
      by_cases hb : pyTruthy (.obj fs)
      · simpa [hb] using hsub
      · simp [hb]

theorem compute_core_no_valueError (a b c d : JVal) (m : String) :
    compute_core a b c d ≠ .error (.valueError m) := by
  unfold compute_core
  cases hs : severityOf a with
  | error err =>
      intro h
      have h' : Except.error err = Except.error (PyErr.valueError m) := h
      rw [Except.error.inj h'] at hs
      exact severityOf_no_valueError a m hs
  | ok sev =>
      intro h
      cases hpt : pyTruthy d with
      | true =>
          rw [hpt] at h
          exact Except.noConfusion h
      | false =>
          rw [hpt] at h
          exact Except.noConfusion h

theorem compute_error_code_no_valueError (e : JVal) (m : String) :
    compute_error_code e ≠ .error (.valueError m) := by
  cases e with
  | obj d =>
      rw [compute_error_code_obj]
      exact compute_core_no_valueError _ _ _ _ m
  | null => intro h; exact PyErr.noConfusion (Except.error.inj h)
  | bool b => intro h; exact PyErr.noConfusion (Except.error.inj h)
  | int n => intro h; exact PyErr.noConfusion (Except.error.inj h)
  | float raw => intro h; exact PyErr.noConfusion (Except.error.inj h)
  | str s => intro h; exact PyErr.noConfusion (Except.error.inj h)
  | arr xs => intro h; exact PyErr.noConfusion (Except.error.inj h)

/-- The grouping loop can only propagate the classifier's dynamic-typing
exceptions; it never produces a `ValueError` of its own. -/
theorem groupLoop_no_valueError :
    ∀ (es : List JVal) (g : Grouping) (m : String),
      groupLoop g es ≠ .error (.valueError m) := by
  intro es
  induction es with
  | nil =>
      intro g m h
      exact Except.noConfusion h
  | cons e es ih =>
      intro g m h
      rw [groupLoop] at h
      cases hce : compute_error_code e with
      | error err =>
          rw [hce] at h
          have h' : Except.error err = Except.error (PyErr.valueError m) := h
          rw [Except.error.inj h'] at hce
          exact compute_error_code_no_valueError e m hce
      | ok c =>
          rw [hce] at h
          exact ih (appendGroup g c e) m h

/-- Claim C2 (counterexample): inputs on which a delimited region is found
and decodes as JSON (so neither of the claim's two failure cases applies),
yet `collect_errors` raises — the classifier's exception propagates from
the grouping loop: `AttributeError` at `error.get` for the non-record
members `1` and `1.5`, `TypeError` at `level[0]` for a record whose
severity is a number, and `KeyError` at `level[0]` for a record whose
severity is a non-empty dictionary.  None of these is a `ValueError`, so
the failure is of a third kind, outside the two the claim allows. -/
theorem c2_third_failure_mode :
    findArrayRegion ("[1]") = some ("[1]") ∧
    json_loads ("[1]") = .ok (.arr [.int 1]) ∧
    collect_errors ("[1]") = .error (.attributeError ("object has no attribute get")) ∧
    json_loads ("[1.5]") = .ok (.arr [.float ("1.5")]) ∧
    collect_errors ("[1.5]") = .error (.attributeError ("object has no attribute get")) ∧
    collect_errors ("[\x7b\"level\": 5\x7d]") =
      .error (.typeError ("int object is not subscriptable")) ∧
    collect_errors ("[\x7b\"level\": \x7b\"a\": 1\x7d\x7d]") = .error (.keyError ("0")) :=
  ⟨rfl, rfl, rfl, rfl, rfl, rfl, rfl⟩

/-- Claim C2 (amended): `collect_errors` raises the explicit
`NoPayloadFound`-style `ValueError` exactly when the text has no delimited
array-like region, and the `MalformedPayload`-style `ValueError` when a
region is found but fails to decode as JSON — and those are its only
`ValueError`s.  They are not its only failure modes: once the region
decodes, the call's outcome is exactly the outcome of iterating the decoded
value and classifying and grouping its elements, a phase that either
returns the grouping or propagates the classifier's own dynamic-typing
exception (`AttributeError`, `TypeError`, `KeyError` — never a
`ValueError`), uncaught.  A successful return happens only through the full
pipeline: region found, region decoded, every element classified. -/
theorem c2_extraction_error_cases :
    ∀ out : String,
      (collect_errors out = .error (.valueError ("No JSON array found in the compiler output.")) ↔
        ¬ hasArrayRegion out) ∧
      (∀ r m, findArrayRegion out = some r → json_loads r = .error m →
        collect_errors out = .error (.valueError ("Error parsing JSON: " ++ m))) ∧
      (∀ r v, findArrayRegion out = some r → json_loads r = .ok v →
        collect_errors out = (do
          let es ← pyIterList v
          groupAll es) ∧
        ∀ m, collect_errors out ≠ .error (.valueError m)) ∧
      (∀ g, collect_errors out = .ok g →
        ∃ r v es, findArrayRegion out = some r ∧ json_loads r = .ok v ∧
          pyIterList v = .ok es ∧ groupAll es = .ok g) := by
  have cnone : ∀ out : String, findArrayRegion out = none →
      collect_errors out = .error (.valueError ("No JSON array found in the compiler output.")) := by
    intro out h
    unfold collect_errors
    rw [h]
  have csome : ∀ out r : String, findArrayRegion out = some r →
      collect_errors out = (match json_loads r with
        | .error e => .error (.valueError ("Error parsing JSON: " ++ e))
        | .ok v => do
            let es ← pyIterList v
            groupAll es) := by
    intro out r h
    unfold collect_errors
    rw [h]
  intro out
  refine ⟨?_, ?_, ?_, ?_⟩
  · rw [← findArrayRegion_none_iff]
    cases hreg : findArrayRegion out with
    | none => simp [cnone out hreg]
    | some r =>
        rw [csome out r hreg]
        constructor
        · intro h
          cases hj : json_loads r with
          | error m =>
              rw [hj] at h
              exact absurd (PyErr.valueError.inj (Except.error.inj h)) (parse_msg_ne m)
          | ok v =>
              rw [hj] at h
              have h2 : (do
                  let es ← pyIterList v
                  groupAll es) =
                  Except.error (PyErr.valueError ("No JSON array found in the compiler output.")) := h
              cases hit : pyIterList v with
              | error err =>
                  rw [hit] at h2
                  have h' : Except.error err =
                      Except.error (PyErr.valueError ("No JSON array found in the compiler output.")) := h2
                  rw [Except.error.inj h'] at hit
                  cases v <;> simp [pyIterList] at hit
              | ok es =>
                  rw [hit] at h2
                  have h' : groupLoop [] es =
                      .error (.valueError ("No JSON array found in the compiler output.")) := h2
                  exact absurd h' (groupLoop_no_valueError es [] _)
        · intro h
          exact Option.noConfusion h
  · intro r m hreg hj
    rw [csome out r hreg, hj]
  · intro r v hreg hj
    constructor
    · rw [csome out r hreg, hj]
    · intro m h
      rw [csome out r hreg, hj] at h
      have h2 : (do
          let es ← pyIterList v
          groupAll es) = Except.error (PyErr.valueError m) := h
      cases hit : pyIterList v with
      | error err =>
          rw [hit] at h2
          have h3 : Except.error err = Except.error (PyErr.valueError m) := h2
          rw [Except.error.inj h3] at hit
          cases v <;> simp [pyIterList] at hit
      | ok es =>
          rw [hit] at h2
          have h3 : groupLoop [] es = .error (.valueError m) := h2
          exact absurd h3 (groupLoop_no_valueError es [] m)
  · intro g h
    cases hreg : findArrayRegion out with
    | none =>
        rw [cnone out hreg] at h
        exact Except.noConfusion h
    | some r =>
        rw [csome out r hreg] at h
        cases hj : json_loads r with
        | error m =>
            rw [hj] at h
            exact Except.noConfusion h
        | ok v =>
            rw [hj] at h
            have h2 : (do
                let es ← pyIterList v
                groupAll es) = Except.ok g := h
            cases hit : pyIterList v with
            | error err =>
                rw [hit] at h2
                exact Except.noConfusion h2
            | ok es =>
                rw [hit] at h2
                have h' : groupLoop [] es = .ok g := h2
                exact ⟨r, v, es, rfl, hj, hit, h'⟩

/-- Claim C2 (witness): the cases of the amended statement at concrete
inputs — no delimited region, a region that fails to decode, and a fully
decoding payload. -/
theorem c2_extraction_error_cases_witness :
    collect_errors ("no payload") = .error (.valueError ("No JSON array found in the compiler output.")) ∧
    collect_errors ("x[2,]y") = .error (.valueError ("Error parsing JSON: " ++ "Expecting value")) ∧
    collect_errors ("BUILDING\n[\x7b\"level\": \"Note\", \"category\": 1, \"code\": 2\x7d]") =
      .ok [("I01002", [.obj [("level", .str "Note"), ("category", .int 1), ("code", .int 2)]])] :=
  ⟨(c2_extraction_error_cases ("no payload")).1.mpr ((findArrayRegion_none_iff _).mp rfl),
   (c2_extraction_error_cases ("x[2,]y")).2.1 ("[2,]") ("Expecting value") rfl rfl,
   (((c2_extraction_error_cases
     ("BUILDING\n[\x7b\"level\": \"Note\", \"category\": 1, \"code\": 2\x7d]")).2.2.1
     ("[\x7b\"level\": \"Note\", \"category\": 1, \"code\": 2\x7d]")
     (.arr [.obj [("level", .str "Note"), ("category", .int 1), ("code", .int 2)]])
     rfl rfl).1).trans rfl⟩

/-! ## The compiler collaborator `compile_contract` (`main.py` 93-255) -/

/-- Single-character ANSI escape class `[@-Z\\-_]`. -/
def ansiSingleCh (c : Char) : Bool :=
  ('@' ≤ c ∧ c ≤ 'Z') ∨ ('\\' ≤ c ∧ c ≤ '_')

/-- CSI parameter byte class `[0-?]`. -/
def csiParamCh (c : Char) : Bool := '0' ≤ c ∧ c ≤ '?'

/-- CSI intermediate byte class (space through slash). -/
def csiInterCh (c : Char) : Bool := ' ' ≤ c ∧ c ≤ '/'

/-- CSI final byte class `[@-~]`. -/
def csiFinalCh (c : Char) : Bool := '@' ≤ c ∧ c ≤ '~'

/-- Match the tail of a CSI sequence after `ESC [`: parameter bytes, then
intermediate bytes, then one final byte; returns the remaining input. -/
def csiMatch (cs : List Char) : Option (List Char) :=
  match (cs.dropWhile csiParamCh).dropWhile csiInterCh with
  | c :: rest => if csiFinalCh c then some rest else none
  | [] => none

/-- Scanner for `strip_ansi` (`main.py` lines 35-40), mirroring the
`re.sub` that deletes ANSI escapes (a lone escape byte or `ESC [` followed
by parameter, intermediate and final bytes): an `ESC` starting no match is
kept and scanning resumes at the next character. -/
def stripAnsiAux : Nat → List Char → List Char
  | 0, cs => cs
  | _ + 1, [] => []
  | fuel + 1, c :: cs =>
      if c = '\x1b' then
        match cs with
        | '[' :: rest =>
            match csiMatch rest with
            | some rest' => stripAnsiAux fuel rest'
            | none => c :: stripAnsiAux fuel cs
        | d :: rest =>
            if ansiSingleCh d then stripAnsiAux fuel rest
            else c :: stripAnsiAux fuel cs
        | [] => [c]
      else c :: stripAnsiAux fuel cs

/-- `strip_ansi` (`main.py` lines 35-40). -/
def strip_ansi (s : String) : String := String.mk (stripAnsiAux s.length s.data)

example : strip_ansi ("plain text") = "plain text" := by rfl
example : strip_ansi (String.mk ['a', '\x1b', '[', '3', '1', 'm', 'b', '\x1b', '[', '0', 'm']) = "ab" := by rfl

/-- The result of one compiler-collaborator call.  `grouped` models the
`result.grouped_errors` attribute bolted onto the result object on the
normal failure path (`main.py` line 251); `none` means the attribute is
absent.  The rendered feedback tables are presentation and not modelled;
`verbose_output` is the feedback text the driver consumes. -/
structure CompilationResultM where
  is_successful : Bool
  status_message : String
  verbose_output : String
  stats : List (String × Int)
  grouped : Option Grouping

/-- Python `str.lower()` on the ASCII level names the compiler emits. -/
def lowerStr (s : String) : String := String.mk (s.data.map Char.toLower)

/-- Python `str.startswith(p)`. -/
def pyStartswith (s p : String) : Bool := List.isPrefixOf p.data s.data

/-- The statistics loop of `compile_contract` (`main.py` lines 184-195):
per group, read the level of the first member (an `IndexError` on an empty
group, an `AttributeError` on a non-string level), add the group size to
the error total, and to the compiler-warning total when the lowered level
starts with `"warn"`. -/
def statsLoop : List (String × List JVal) → Int → Int → Except PyErr (Int × Int)
  | [], te, tw => .ok (te, tw)
  | (_, errs) :: rest, te, tw => do
      let sample ← (match errs.head? with
        | some s => Except.ok s
        | none => Except.error (PyErr.indexError ("list index out of range")))
      let levelv ← pyGet sample "level" (.str "Unknown")
      let lvl ← (match levelv with
        | .str s => Except.ok s
        | _ => Except.error (PyErr.attributeError ("object has no attribute lower")))
      let count : Int := errs.length
      statsLoop rest (te + count) (if pyStartswith (lowerStr lvl) ("warn") then tw + count else tw)

/-- The summary statistics dictionary of the failure path. -/
def computeStats (g : Grouping) : Except PyErr (List (String × Int)) := do
  let (te, tw) ← statsLoop g 0 0
  pure [("errors", te), ("compiler_warnings", tw), ("linter_warnings", 0)]

/-- A subprocess result: return code and captured stderr. -/
structure SubprocOut where
  returncode : Int
  stderrOut : String

/-- The filesystem as the set of existing paths. -/
abbrev FSet := List String

/-- Whether `p` is the directory `d` itself or lies underneath it. -/
def underDir (d p : String) : Bool :=
  p = d || List.isPrefixOf (d ++ "/").data p.data

/-- `shutil.rmtree`: remove a directory and everything under it. -/
def rmtree (d : String) (fs : FSet) : FSet := fs.filter (fun p => !(underDir d p))

/-- The value `compile_contract` produces from the two subprocess results
(`main.py` lines 148-253): success when the verbose build exits 0;
otherwise extract from the second build's stderr — a caught `ValueError`
(the two explicit extraction failures) degrades to a result with empty
stats, no `grouped_errors` attribute and the raw text folded into the
feedback, any other exception propagates, and on extraction success the
stats are computed (their own exceptions propagating) and the groups are
attached. -/
def compile_outcome (r1 r2 : SubprocOut) : Except PyErr CompilationResultM :=
  if r1.returncode = 0 then
    .ok { is_successful := true,
          status_message := "Compilation Successful!",
          verbose_output := r1.stderrOut,
          stats := [("errors", 0), ("compiler_warnings", 0), ("linter_warnings", 0)],
          grouped := none }
  else
    match collect_errors r2.stderrOut with
    | .error (.valueError m) =>
        .ok { is_successful := false,
              status_message := "Compilation Error!",
              verbose_output := "Error extracting error details: " ++ m ++ "\nVerbose Output:\n" ++ strip_ansi r1.stderrOut,
              stats := [],
              grouped := none }
    | .error e => .error e
    | .ok grouped_errors =>
        match computeStats grouped_errors with
        | .error e => .error e
        | .ok stats =>
            .ok { is_successful := false,
                  status_message := "Compilation Error!",
                  verbose_output := r1.stderrOut,
                  stats := stats,
                  grouped := some grouped_errors }

/-- `compile_contract` (`main.py` lines 93-255) with its filesystem effects.
`tmp` is the fresh directory handed out by `tempfile.mkdtemp`; `run1` and
`run2` are the two `sui move build` subprocess invocations, external
collaborators acting on the staged workspace.  The body stages `Move.toml`
and the contract source under `tmp`, runs both builds, and produces the
outcome; the `try`/`finally` ensures `shutil.rmtree(tmp)` runs on every
exit path — success, compile failure, extraction failure (the caught
`ValueError`), and any propagating exception alike.  The source text is
staged as file content, which the path-set filesystem does not model, so
the parameter is unused here. -/
def compile_contract (_contract_source : String) (tmp : String)
    (run1 run2 : FSet → SubprocOut × FSet) (fs : FSet) :
    (Except PyErr CompilationResultM) × FSet :=
  let fs3 := (tmp ++ "/sources/temp_contract.move") ::
    (tmp ++ "/sources") :: (tmp ++ "/Move.toml") :: tmp :: fs
  let pr1 := run1 fs3
  let pr2 := run2 pr1.2
  (compile_outcome pr1.1 pr2.1, rmtree tmp pr2.2)

theorem underDir_self (tmp : String) : underDir tmp tmp = true := by
  simp [underDir]

theorem underDir_slash (tmp rest : String) :
    underDir tmp (tmp ++ ("/" ++ rest)) = true := by
  unfold underDir
  apply Bool.or_eq_true_iff.mpr
  right
  rw [List.isPrefixOf_iff_prefix, String.data_append, String.data_append, String.data_append,
    ← List.append_assoc]
  exact List.prefix_append _ _

/-- Claim C9: the temporary workspace is removed on every exit path.  First,
unconditionally — whatever the two build invocations do to the filesystem
and whichever outcome (success, compile failure, extraction failure, or a
propagating exception) is produced — no path at or under the temporary
directory survives a `compile_contract` call.  Second, when the temporary
name is fresh and the builds confine their effects to the workspace (the
collaborator contract), the filesystem after the call is exactly the
filesystem before it, so nothing of the attempt is visible afterwards. -/
theorem c9_temp_workspace_removed :
    ∀ (source tmp : String) (run1 run2 : FSet → SubprocOut × FSet) (fs : FSet),
      (∀ p, p ∈ (compile_contract source tmp run1 run2 fs).2 → underDir tmp p = false) ∧
      ((∀ p ∈ fs, underDir tmp p = false) →
       (∀ fsx p, underDir tmp p = false → (p ∈ (run1 fsx).2 ↔ p ∈ fsx)) →
       (∀ fsx p, underDir tmp p = false → (p ∈ (run2 fsx).2 ↔ p ∈ fsx)) →
       ∀ p, (p ∈ (compile_contract source tmp run1 run2 fs).2 ↔ p ∈ fs)) := by
  intro source tmp run1 run2 fs
  have hsnd : (compile_contract source tmp run1 run2 fs).2 =
      rmtree tmp (run2 (run1 ((tmp ++ "/sources/temp_contract.move") ::
        (tmp ++ "/sources") :: (tmp ++ "/Move.toml") :: tmp :: fs)).2).2 := rfl
  constructor
  · intro p hp
    rw [hsnd] at hp
    have := List.of_mem_filter hp
    simpa using this
  · intro hfresh h1 h2 p
    rw [hsnd]
    by_cases hu : underDir tmp p = true
    · have hnotfs : p ∉ fs := by
        intro hpf
        rw [hfresh p hpf] at hu
        exact Bool.noConfusion hu
      constructor
      · intro hmem
        have := List.of_mem_filter hmem
        rw [hu] at this
        exact Bool.noConfusion this
      · intro hmem
        exact absurd hmem hnotfs
    · have hu' : underDir tmp p = false := by
        revert hu
        cases underDir tmp p <;> simp
      have hchain : p ∈ (run2 (run1 ((tmp ++ "/sources/temp_contract.move") ::
          (tmp ++ "/sources") :: (tmp ++ "/Move.toml") :: tmp :: fs)).2).2 ↔ p ∈ fs := by
        rw [h2 _ p hu', h1 _ p hu']
        have hne : ∀ q : String, underDir tmp q = true → p ≠ q := by
          intro q hq he
          rw [he, hq] at hu'
          exact Bool.noConfusion hu'
        have hn1 : p ≠ tmp ++ "/sources/temp_contract.move" :=
          hne _ (underDir_slash tmp ("sources/temp_contract.move"))
        have hn2 : p ≠ tmp ++ "/sources" := hne _ (underDir_slash tmp ("sources"))
        have hn3 : p ≠ tmp ++ "/Move.toml" := hne _ (underDir_slash tmp ("Move.toml"))
        have hn4 : p ≠ tmp := hne _ (underDir_self tmp)
        simp [List.mem_cons, hn1, hn2, hn3, hn4]
      rw [show rmtree tmp (run2 (run1 ((tmp ++ "/sources/temp_contract.move") ::
          (tmp ++ "/sources") :: (tmp ++ "/Move.toml") :: tmp :: fs)).2).2 =
          List.filter (fun q => !(underDir tmp q)) (run2 (run1 ((tmp ++ "/sources/temp_contract.move") ::
          (tmp ++ "/sources") :: (tmp ++ "/Move.toml") :: tmp :: fs)).2).2 from rfl]
      rw [List.mem_filter]
      simp [hu', hchain]

/-- Claim C9 (witness): a concrete call — failing build that stages an
artifact under the workspace — leaves the outside filesystem exactly as it
was, and no path under the temporary directory survives. -/
theorem c9_temp_workspace_removed_witness :
    (∀ p, p ∈ (compile_contract ("module m \x7b\x7d") ("/tmp/t0")
        (fun fsx => ({ returncode := 1, stderrOut := "build failed" }, ("/tmp/t0/build/out") :: fsx))
        (fun fsx => ({ returncode := 1, stderrOut := "no json" }, fsx))
        ["/home/u/file"]).2 → underDir ("/tmp/t0") p = false) ∧
    (∀ p, p ∈ (compile_contract ("module m \x7b\x7d") ("/tmp/t0")
        (fun fsx => ({ returncode := 1, stderrOut := "build failed" }, ("/tmp/t0/build/out") :: fsx))
        (fun fsx => ({ returncode := 1, stderrOut := "no json" }, fsx))
        ["/home/u/file"]).2 ↔ p ∈ ["/home/u/file"]) := by
  refine ⟨(c9_temp_workspace_removed _ _ _ _ _).1, (c9_temp_workspace_removed _ _ _ _ _).2 ?_ ?_ ?_⟩
  · intro p hp
    simp only [List.mem_singleton] at hp
    rw [hp]
    rfl
  · intro fsx p hup
    constructor
    · intro hmem
      rcases List.mem_cons.mp hmem with he | hm
      · rw [he] at hup
        exact absurd hup (by rw [show underDir ("/tmp/t0") ("/tmp/t0/build/out") = true from rfl]; simp)
      · exact hm
    · intro hm
      exact List.mem_cons_of_mem _ hm
  · intro fsx p hup
    exact Iff.rfl

/-! ## Failure-path statistics (C10) -/

/-- Total number of diagnostics across all groups. -/
def groupTotal (gs : List (String × List JVal)) : Nat :=
  (gs.map fun q => q.2.length).sum

theorem statsLoop_errors_total :
    ∀ (gs : List (String × List JVal)) (te tw : Int) (res : Int × Int),
      statsLoop gs te tw = .ok res → res.1 = te + (groupTotal gs : Int) := by
  intro gs
  induction gs with
  | nil =>
      intro te tw res h
      have h' : (te, tw) = res := Except.ok.inj h
      rw [← h']
      simp [groupTotal]
  | cons q rest ih =>
      obtain ⟨c, errs⟩ := q
      intro te tw res h
      rw [statsLoop] at h
      cases hh : errs.head? with
      | none =>
          rw [hh] at h
          exact Except.noConfusion h
      | some sample =>
          rw [hh] at h
          have h2 : (do
              let levelv ← pyGet sample "level" (.str "Unknown")
              let lvl ← (match levelv with
                | .str s => Except.ok s
                | _ => Except.error (PyErr.attributeError ("object has no attribute lower")))
              let count : Int := errs.length
              statsLoop rest (te + count)
                (if pyStartswith (lowerStr lvl) ("warn") then tw + count else tw)) = .ok res := h
          cases hg : pyGet sample "level" (.str "Unknown") with
          | error e =>
              rw [hg] at h2
              exact Except.noConfusion h2
          | ok levelv =>
              rw [hg] at h2
              cases levelv with
              | str s =>
                  have h3 : statsLoop rest (te + (errs.length : Int))
                      (if pyStartswith (lowerStr s) ("warn") then tw + (errs.length : Int) else tw) = .ok res := h2
                  have hih := ih _ _ _ h3
                  rw [hih]
                  simp only [groupTotal, List.map_cons, List.sum_cons]
                  push_cast
                  ring
              | null => exact Except.noConfusion h2
              | bool b => exact Except.noConfusion h2
              | int n => exact Except.noConfusion h2
              | float raw => exact Except.noConfusion h2
              | arr xs => exact Except.noConfusion h2
              | obj d => exact Except.noConfusion h2

/-- The total group size equals the number of decoded records (no record is
dropped or counted twice by grouping). -/
theorem groupAll_sum_length (es : List JVal) (g : Grouping) (h : groupAll es = .ok g) :
    groupTotal g = es.length := by
  have hres := groupLoop_inv es [] [] g h ⟨by simp, by simp, rfl, rfl, by simp⟩
  simpa [groupTotal] using hres.2.2.2.1

/-- Claim C10: on the failure path with a successfully extracted payload,
the returned stats always carry `linter_warnings = 0`, and the `errors`
entry is the total size of all groups — which equals the number of parsed
diagnostics of every severity, warnings included, so `errors` is not a
count of error-severity diagnostics alone. -/
theorem c10_stats_count_all_severities :
    ∀ (g : Grouping) (st : List (String × Int)),
      computeStats g = .ok st →
      List.lookup "linter_warnings" st = some 0 ∧
      List.lookup "errors" st = some (groupTotal g : Int) ∧
      (∀ es, groupAll es = .ok g →
        List.lookup "errors" st = some (es.length : Int)) ∧
      (∀ (source tmp : String) (run1 run2 : FSet → SubprocOut × FSet) (fs : FSet)
          (res : CompilationResultM) (fsOut : FSet),
        compile_contract source tmp run1 run2 fs = (.ok res, fsOut) →
        res.grouped = some g →
        res.is_successful = false ∧ res.stats = st) := by
  intro g st h
  rw [computeStats] at h
  cases hs : statsLoop g 0 0 with
  | error e =>
      rw [hs] at h
      exact Except.noConfusion h
  | ok p =>
      rw [hs] at h
      obtain ⟨te, tw⟩ := p
      have hst : [("errors", te), ("compiler_warnings", tw), ("linter_warnings", (0 : Int))] = st :=
        Except.ok.inj h
      have hte : te = (groupTotal g : Int) := by
        have := statsLoop_errors_total g 0 0 (te, tw) hs
        simpa using this
      refine ⟨?_, ?_, ?_, ?_⟩
      · rw [← hst]
        rfl
      · rw [← hst, hte]
        rfl
      · intro es hes
        rw [← hst, hte, groupAll_sum_length es g hes]
        rfl
      · intro source tmp run1 run2 fs res fsOut hcc hg
        have hout : compile_outcome (run1 ((tmp ++ "/sources/temp_contract.move") ::
            (tmp ++ "/sources") :: (tmp ++ "/Move.toml") :: tmp :: fs)).1
            (run2 (run1 ((tmp ++ "/sources/temp_contract.move") ::
            (tmp ++ "/sources") :: (tmp ++ "/Move.toml") :: tmp :: fs)).2).1 = .ok res :=
          congrArg Prod.fst hcc
        revert hout
        generalize (run1 ((tmp ++ "/sources/temp_contract.move") ::
            (tmp ++ "/sources") :: (tmp ++ "/Move.toml") :: tmp :: fs)).1 = r1
        generalize (run2 (run1 ((tmp ++ "/sources/temp_contract.move") ::
            (tmp ++ "/sources") :: (tmp ++ "/Move.toml") :: tmp :: fs)).2).1 = r2
        intro hout
        rw [compile_outcome] at hout
        by_cases hrc : r1.returncode = 0
        · rw [if_pos hrc] at hout
          have hres := Except.ok.inj hout
          rw [← hres] at hg
          exact absurd hg (by simp)
        · rw [if_neg hrc] at hout
          cases hce : collect_errors r2.stderrOut with
          | error e =>
              rw [hce] at hout
              cases e with
              | valueError m =>
                  have hres := Except.ok.inj hout
                  rw [← hres] at hg
                  exact absurd hg (by simp)
              | attributeError m => exact Except.noConfusion hout
              | typeError m => exact Except.noConfusion hout
              | keyError m => exact Except.noConfusion hout
              | indexError m => exact Except.noConfusion hout
          | ok g' =>
              rw [hce] at hout
              have hout2 : (match computeStats g' with
                | Except.error e => (Except.error e : Except PyErr CompilationResultM)
                | Except.ok stats =>
                    Except.ok { is_successful := false, status_message := "Compilation Error!",
                                verbose_output := r1.stderrOut, stats := stats,
                                grouped := some g' }) = Except.ok res := hout
              cases hcs : computeStats g' with
              | error e =>
                  rw [hcs] at hout2
                  exact Except.noConfusion hout2
              | ok sts =>
                  rw [hcs] at hout2
                  have hres := Except.ok.inj hout2
                  rw [← hres] at hg
                  simp only [Option.some.injEq] at hg
                  rw [hg] at hcs
                  rw [computeStats, hs] at hcs
                  have hsts : [("errors", te), ("compiler_warnings", tw), ("linter_warnings", (0 : Int))] = sts :=
                    Except.ok.inj hcs
                  constructor
                  · rw [← hres]
                  · rw [← hres]
                    show sts = st
                    rw [← hsts, hst]

/-! ## The refinement driver `iterative_evaluation` (`main.py` 285-503) -/

/-- Per-code info stored in an iteration's `error_codes` map (`main.py`
lines 345-349): occurrence count, sample message and sample level. -/
structure CodeInfo where
  count : Int
  message : JVal
  level : JVal

/-- One record of the fine-tuning list (`main.py` lines 372-381); fields no
claim consumes (prompt, timestamp) are omitted. -/
structure IterationData where
  iteration : Nat
  contract_source : String
  compiler_output : String
  is_successful : Bool
  error_stats : List (String × Int)
  error_codes : List (String × CodeInfo)

/-- One entry of `iterations_history` (`main.py` lines 385-392). -/
structure IterationMetrics where
  iteration : Nat
  errors : Int
  compiler_warnings : Int
  linter_warnings : Int
  error_codes : List (String × CodeInfo)
  success : Bool

/-- The cross-iteration `error_histogram`: code to per-iteration counts. -/
abbrev Histogram := List (String × List Int)

/-- Python dict assignment `d[k] = v`: update the existing binding in
place, or append a new one. -/
def pyDictSet (d : List (String × CodeInfo)) (k : String) (v : CodeInfo) :
    List (String × CodeInfo) :=
  match d with
  | [] => [(k, v)]
  | (k', v') :: rest => if k' = k then (k, v) :: rest else (k', v') :: pyDictSet rest k v

/-- The `error_histogram` update (`main.py` lines 351-354): a code absent
from the histogram first gets the series `[0] * max_iterations`, then index
`i` of its series is set to the count. -/
def histSet (hist : Histogram) (c : String) (N i : Nat) (v : Int) : Histogram :=
  match hist with
  | [] => [(c, (List.replicate N (0 : Int)).set i v)]
  | (c', s) :: rest =>
      if c' = c then (c', s.set i v) :: rest else (c', s) :: histSet rest c N i v

/-- The `try` block over the grouped errors (`main.py` lines 338-354):
build the per-iteration `error_codes` dictionary and update the histogram.
An empty group raises `IndexError` at `errors[0]`, a non-dictionary member
raises `AttributeError` at `.get`; the partial updates made before the
exception persist (Python mutates in place) and are returned with it. -/
def tryCodes : List (String × List JVal) → Nat → Nat →
    List (String × CodeInfo) → Histogram →
    (List (String × CodeInfo) × Histogram × Option PyErr)
  | [], _, _, codes, hist => (codes, hist, none)
  | (c, errs) :: rest, N, i, codes, hist =>
      match errs.head? with
      | none => (codes, hist, some (.indexError ("list index out of range")))
      | some sample =>
          match pyGet sample "msg" (.str "Unknown error"),
                pyGet sample "level" (.str "Error") with
          | .ok msg, .ok lvl =>
              tryCodes rest N i
                (pyDictSet codes c { count := (errs.length : Int), message := msg, level := lvl })
                (histSet hist c N i (errs.length : Int))
          | .error e, _ => (codes, hist, some e)
          | .ok _, .error e => (codes, hist, some e)

/-- The error-code extraction step of one driver iteration (`main.py`
lines 334-369): nothing on success; on failure read the bolted-on
`grouped_errors` attribute via `getattr(…, {})` — an absent attribute means
the loop body runs zero times and no exception occurs — and when something
in the `try` block raises, the `except` branch adds an `UNKNOWN_ERROR`
bucket from the stats if the error count there is positive. -/
def extractCodes (res : CompilationResultM) (N i : Nat) (hist : Histogram) :
    List (String × CodeInfo) × Histogram :=
  if res.is_successful then ([], hist)
  else
    match tryCodes (res.grouped.getD []) N i [] hist with
    | (codes, hist', none) => (codes, hist')
    | (codes, hist', some _) =>
        let count := (List.lookup "errors" res.stats).getD 0
        if 0 < count then
          (pyDictSet codes ("UNKNOWN_ERROR")
             { count := count, message := .str "Unknown error", level := .str "Error" },
           histSet hist' ("UNKNOWN_ERROR") N i count)
        else (codes, hist')

/-- The mutable state of the refinement loop. -/
structure DriverSt where
  contract_source : String
  histogram : Histogram
  ftData : List IterationData
  history : List IterationMetrics
  compile_calls : Nat

/-- The state at loop entry (`main.py` lines 299-308). -/
def initSt : DriverSt :=
  { contract_source := "", histogram := [], ftData := [], history := [], compile_calls := 0 }

/-- One iteration of the refinement loop (`main.py` lines 322-421): obtain
a candidate from the generation collaborator, call the compiler
collaborator, extract error codes, append the fine-tuning record (whose
`compiler_output` is the ANSI-stripped feedback text) and the metrics
snapshot, and report whether the loop breaks (successful compilation).
`gen` abstracts the generation collaborator as a function of the iteration
index; `compile` abstracts the compiler collaborator. -/
def driverStep (gen : Nat → String) (compile : String → CompilationResultM)
    (N i : Nat) (st : DriverSt) : DriverSt × Bool :=
  let src := gen i
  let res := compile src
  let ch := extractCodes res N i st.histogram
  let itData : IterationData :=
    { iteration := i + 1, contract_source := src,
      compiler_output := strip_ansi res.verbose_output,
      is_successful := res.is_successful,
      error_stats := res.stats, error_codes := ch.1 }
  let metrics : IterationMetrics :=
    { iteration := i + 1,
      errors := (List.lookup "errors" res.stats).getD 0,
      compiler_warnings := (List.lookup "compiler_warnings" res.stats).getD 0,
      linter_warnings := (List.lookup "linter_warnings" res.stats).getD 0,
      error_codes := ch.1, success := res.is_successful }
  ({ contract_source := src, histogram := ch.2,
     ftData := st.ftData ++ [itData], history := st.history ++ [metrics],
     compile_calls := st.compile_calls + 1 }, res.is_successful)

/-- The `for i in range(max_iterations)` loop with its `break` on success:
`k` is the number of remaining iterations, `i` the current index. -/
def driverGo (gen : Nat → String) (compile : String → CompilationResultM) (N : Nat) :
    Nat → Nat → DriverSt → DriverSt
  | 0, _, st => st
  | k + 1, i, st =>
      if (driverStep gen compile N i st).2 then (driverStep gen compile N i st).1
      else driverGo gen compile N k (i + 1) (driverStep gen compile N i st).1

/-- `iterative_evaluation` (`main.py` lines 285-503), returning the final
loop state: last generated source, histogram, fine-tuning records, history
of per-iteration metrics, and the number of compiler-collaborator calls. -/
def iterative_evaluation (gen : Nat → String) (compile : String → CompilationResultM)
    (N : Nat) : DriverSt :=
  driverGo gen compile N N 0 initSt

/-- The run's terminal outcome, read off the success flag of the final
snapshot (spec section 7: `EXHAUSTED` is distinguishable from `SUCCESS`
only by that flag). -/
inductive Outcome where
  | success
  | exhausted
deriving Repr, DecidableEq

/-- Outcome of a finished run. -/
def runOutcome (st : DriverSt) : Outcome :=
  if ((st.history.getLast?).map (fun m => m.success)).getD false then .success else .exhausted

/-! ## Exhaustion (C5) -/

theorem driverGo_allFail (gen : Nat → String) (compile : String → CompilationResultM)
    (N : Nat) (hfail : ∀ s, (compile s).is_successful = false) :
    ∀ (k i : Nat) (st : DriverSt),
      (driverGo gen compile N k i st).compile_calls = st.compile_calls + k ∧
      (driverGo gen compile N k i st).history.length = st.history.length + k ∧
      (driverGo gen compile N k i st).ftData.length = st.ftData.length + k ∧
      (driverGo gen compile N k i st).contract_source =
        (if k = 0 then st.contract_source else gen (i + (k - 1))) ∧
      (∀ m ∈ (driverGo gen compile N k i st).history, m ∈ st.history ∨ m.success = false) := by
  intro k
  induction k with
  | zero =>
      intro i st
      refine ⟨rfl, rfl, rfl, rfl, fun m hm => Or.inl hm⟩
  | succ k ih =>
      intro i st
      have hbrk : (driverStep gen compile N i st).2 = false := hfail (gen i)
      have hred : driverGo gen compile N (k + 1) i st =
          driverGo gen compile N k (i + 1) (driverStep gen compile N i st).1 := by
        rw [driverGo, hbrk]
        simp
      rw [hred]
      obtain ⟨ih1, ih2, ih3, ih4, ih5⟩ := ih (i + 1) (driverStep gen compile N i st).1
      have hcalls : (driverStep gen compile N i st).1.compile_calls = st.compile_calls + 1 := rfl
      have hhist : (driverStep gen compile N i st).1.history.length = st.history.length + 1 := by
        show (st.history ++ [_]).length = st.history.length + 1
        simp
      have hft : (driverStep gen compile N i st).1.ftData.length = st.ftData.length + 1 := by
        show (st.ftData ++ [_]).length = st.ftData.length + 1
        simp
      refine ⟨?_, ?_, ?_, ?_, ?_⟩
      · rw [ih1, hcalls]
        omega
      · rw [ih2, hhist]
        omega
      · rw [ih3, hft]
        omega
      · rw [ih4]
        cases k with
        | zero =>
            simp only [if_pos rfl]
            show gen i = if 0 + 1 = 0 then st.contract_source else gen (i + (0 + 1 - 1))
            simp
        | succ k' =>
            have : ¬ (k' + 1 = 0) := by omega
            simp only [if_neg this]
            have : ¬ (k' + 1 + 1 = 0) := by omega
            simp only [if_neg this]
            congr 1
            omega
      · intro m hm
        rcases ih5 m hm with hmem | hsf
        · rcases List.mem_append.mp hmem with hmem' | hmem'
          · exact Or.inl hmem'
          · right
            simp only [List.mem_singleton] at hmem'
            rw [hmem']
            exact hfail (gen i)
        · exact Or.inr hsf

theorem mem_of_getLast_some {α : Type} {l : List α} {a : α} (h : l.getLast? = some a) :
    a ∈ l := by
  induction l with
  | nil => simp at h
  | cons x xs ih =>
      cases xs with
      | nil =>
          simp at h
          simp [h]
      | cons y ys =>
          rw [List.getLast?_cons_cons] at h
          exact List.mem_cons_of_mem _ (ih h)

/-- Claim C5: when the compiler collaborator reports failure on every
attempt, a run with budget `N` invokes the compiler collaborator exactly
`N` times, records `N` snapshots (the full ledger: metrics history and
fine-tuning records), ends in the `EXHAUSTED` outcome — every snapshot,
including the final one, carries a false success flag — and returns the
source generated in the last iteration; no exception is raised (the model
is total). -/
theorem c5_exhaustion_runs_all_iterations :
    ∀ (gen : Nat → String) (compile : String → CompilationResultM) (N : Nat),
      (∀ s, (compile s).is_successful = false) →
      (iterative_evaluation gen compile N).compile_calls = N ∧
      (iterative_evaluation gen compile N).history.length = N ∧
      (iterative_evaluation gen compile N).ftData.length = N ∧
      runOutcome (iterative_evaluation gen compile N) = .exhausted ∧
      (∀ m ∈ (iterative_evaluation gen compile N).history, m.success = false) ∧
      (0 < N → (iterative_evaluation gen compile N).contract_source = gen (N - 1)) := by
  intro gen compile N hfail
  obtain ⟨h1, h2, h3, h4, h5⟩ := driverGo_allFail gen compile N hfail N 0 initSt
  have hsf : ∀ m ∈ (iterative_evaluation gen compile N).history, m.success = false := by
    intro m hm
    rcases h5 m hm with hmem | hs
    · exact absurd hmem (List.not_mem_nil m)
    · exact hs
  refine ⟨by simpa [iterative_evaluation, initSt] using h1,
          by simpa [iterative_evaluation, initSt] using h2,
          by simpa [iterative_evaluation, initSt] using h3, ?_, hsf, ?_⟩
  · rw [runOutcome]
    cases hl : (iterative_evaluation gen compile N).history.getLast? with
    | none => simp [hl]
    | some m =>
        have hm : m ∈ (iterative_evaluation gen compile N).history := mem_of_getLast_some hl
        simp [hl, hsf m hm]
  · intro hN
    have : ¬ (N = 0) := by omega
    simpa [iterative_evaluation, initSt, this] using h4

/-- All-failing compiler collaborator used by the exhaustion witness. -/
def c5failRes : CompilationResultM :=
  { is_successful := false, status_message := "Compilation Error!",
    verbose_output := "errors", stats := [("errors", 2), ("compiler_warnings", 0), ("linter_warnings", 0)],
    grouped := some [("E05001", [nbeRec, nbeRec])] }

/-- Claim C5 (witness): a concrete always-failing run with budget 3 calls
the compiler exactly 3 times, records 3 snapshots, ends `EXHAUSTED`, and
returns the source of iteration 3. -/
theorem c5_exhaustion_runs_all_iterations_witness :
    (iterative_evaluation (fun i => "src" ++ toString i) (fun _ => c5failRes) 3).compile_calls = 3 ∧
    (iterative_evaluation (fun i => "src" ++ toString i) (fun _ => c5failRes) 3).history.length = 3 ∧
    runOutcome (iterative_evaluation (fun i => "src" ++ toString i) (fun _ => c5failRes) 3) = .exhausted ∧
    (iterative_evaluation (fun i => "src" ++ toString i) (fun _ => c5failRes) 3).contract_source = "src2" :=
  have h := c5_exhaustion_runs_all_iterations (fun i => "src" ++ toString i)
    (fun _ => c5failRes) 3 (fun _ => rfl)
  ⟨h.1, h.2.1, h.2.2.2.1, by simpa using h.2.2.2.2.2 (by decide)⟩

/-! ## Extraction failure inside the loop (C4) -/

/-- First build invocation of the C4 scenario: compile failure. -/
def c4run1 : FSet → SubprocOut × FSet :=
  fun fsx => ({ returncode := 1, stderrOut := "build failed" }, fsx)

/-- Second build invocation of the C4 scenario: stderr with no payload. -/
def c4run2 : FSet → SubprocOut × FSet :=
  fun fsx => ({ returncode := 1, stderrOut := "no json here" }, fsx)

/-- The compiler-collaborator result produced on extraction failure: the
caught `ValueError` degrades to empty stats, no `grouped_errors` attribute,
and a feedback text that folds in the raw output. -/
def c4res : CompilationResultM :=
  { is_successful := false, status_message := "Compilation Error!",
    verbose_output := "Error extracting error details: No JSON array found in the compiler output.\nVerbose Output:\nbuild failed",
    stats := [], grouped := none }

/-- Claim C4 (counterexample): in a run whose compile step hits extraction
failure every time, the driver completes both iterations of a budget-2 run
without raising — but it records NO error bucket at all: each iteration's
`error_codes` map is empty (in particular there is no `UNKNOWN_ERROR`
bucket), refuting the claim that the failure is recorded as an opaque,
uncategorized error bucket.  The raw text is preserved in the iteration
records. -/
theorem c4_no_bucket_recorded :
    (compile_contract ("mod") ("/tmp/t1") c4run1 c4run2 []).1 = .ok c4res ∧
    (iterative_evaluation (fun _ => "mod") (fun _ => c4res) 2).history.length = 2 ∧
    ((iterative_evaluation (fun _ => "mod") (fun _ => c4res) 2).history.map
      (fun m => m.error_codes)) = [[], []] ∧
    ((iterative_evaluation (fun _ => "mod") (fun _ => c4res) 2).ftData.map
      (fun d => d.compiler_output)) =
      ["Error extracting error details: No JSON array found in the compiler output.\nVerbose Output:\nbuild failed",
       "Error extracting error details: No JSON array found in the compiler output.\nVerbose Output:\nbuild failed"] :=
  ⟨rfl, rfl, rfl, rfl⟩

/-- Claim C4 (amended): when extraction fails during an iteration, the
driver does not raise out of the loop.  `compile_contract` catches the
`ValueError` and returns a failure result with empty stats, no
`grouped_errors` attribute and the raw text folded into the feedback; the
driver then completes the iteration with an EMPTY error-code map — it
records no opaque error bucket, since the `UNKNOWN_ERROR` path is reachable
only when reading the grouped errors itself raises — leaves the histogram
untouched, preserves the (ANSI-stripped) raw feedback text in the iteration
record, and proceeds to the decision step (no break, loop continues). -/
theorem c4_extraction_failure_nonfatal :
    ∀ (r1 r2 : SubprocOut) (m : String),
      r1.returncode ≠ 0 →
      collect_errors r2.stderrOut = .error (.valueError m) →
      (compile_outcome r1 r2 = .ok
        { is_successful := false, status_message := "Compilation Error!",
          verbose_output := "Error extracting error details: " ++ m ++ "\nVerbose Output:\n" ++ strip_ansi r1.stderrOut,
          stats := [], grouped := none }) ∧
      (∀ (gen : Nat → String) (compile : String → CompilationResultM) (N i : Nat) (st : DriverSt),
        (compile (gen i)).is_successful = false →
        (compile (gen i)).grouped = none →
        (driverStep gen compile N i st).2 = false ∧
        (driverStep gen compile N i st).1.histogram = st.histogram ∧
        ((driverStep gen compile N i st).1.history.map (fun mm => mm.error_codes)) =
          (st.history.map (fun mm => mm.error_codes)) ++ [[]] ∧
        ((driverStep gen compile N i st).1.ftData.map (fun d => d.compiler_output)) =
          (st.ftData.map (fun d => d.compiler_output)) ++
            [strip_ansi (compile (gen i)).verbose_output]) := by
  intro r1 r2 m h1 h2
  constructor
  · rw [compile_outcome, if_neg h1, h2]
  · intro gen compile N i st hsucc hgrp
    have hextract : extractCodes (compile (gen i)) N i st.histogram = ([], st.histogram) := by
      rw [extractCodes, if_neg (by rw [hsucc]; exact Bool.false_ne_true), hgrp]
      rfl
    refine ⟨hsucc, ?_, ?_, ?_⟩
    · show (extractCodes (compile (gen i)) N i st.histogram).2 = st.histogram
      rw [hextract]
    · show (st.history ++ [_]).map (fun mm : IterationMetrics => mm.error_codes) = _
      rw [List.map_append]
      congr 1
      show [(extractCodes (compile (gen i)) N i st.histogram).1] = [[]]
      rw [hextract]
    · show (st.ftData ++ [_]).map (fun d : IterationData => d.compiler_output) = _
      rw [List.map_append]
      rfl

/-- Claim C4 (witness): the amended statement at the concrete
extraction-failure scenario (budget-2 run, raw text `"no json here"` with
no payload). -/
theorem c4_extraction_failure_nonfatal_witness :
    compile_outcome ({ returncode := 1, stderrOut := "build failed" })
        ({ returncode := 1, stderrOut := "no json here" }) = .ok
      { is_successful := false, status_message := "Compilation Error!",
        verbose_output := "Error extracting error details: " ++ "No JSON array found in the compiler output." ++ "\nVerbose Output:\n" ++ strip_ansi ("build failed"),
        stats := [], grouped := none } ∧
    (driverStep (fun _ => "mod") (fun _ => c4res) 2 0 initSt).2 = false ∧
    ((driverStep (fun _ => "mod") (fun _ => c4res) 2 0 initSt).1.history.map
      (fun mm => mm.error_codes)) = [[]] :=
  have h := c4_extraction_failure_nonfatal ({ returncode := 1, stderrOut := "build failed" })
    ({ returncode := 1, stderrOut := "no json here" })
    ("No JSON array found in the compiler output.") (by decide) rfl
  have h2 := h.2 (fun _ => "mod") (fun _ => c4res) 2 0 initSt rfl rfl
  ⟨h.1, h2.1, by simpa using h2.2.2.1⟩

/-! ## Ledger padding (C6) -/

theorem lookup_cons_self {b : Type} (k : String) (v : b) (l : List (String × b)) :
    List.lookup k ((k, v) :: l) = some v := by
  simp [List.lookup]

theorem lookup_cons_ne {b : Type} {k k2 : String} (v : b) (l : List (String × b))
    (h : k ≠ k2) : List.lookup k ((k2, v) :: l) = List.lookup k l := by
  have hb : (k == k2) = false := beq_eq_false_iff_ne.mpr h
  simp [List.lookup, hb]

theorem lookup_histSet (hist : Histogram) (c c0 : String) (N i : Nat) (v : Int) :
    List.lookup c0 (histSet hist c N i v) =
      if c0 = c then some (((List.lookup c hist).getD (List.replicate N 0)).set i v)
      else List.lookup c0 hist := by
  induction hist with
  | nil =>
      by_cases hc : c0 = c
      · subst hc
        rw [histSet, if_pos rfl, lookup_cons_self]
        rfl
      · rw [histSet, if_neg hc, lookup_cons_ne _ _ hc]
  | cons q rest ih =>
      obtain ⟨c2, s⟩ := q
      by_cases hc2 : c2 = c
      · subst hc2
        have hred : histSet ((c2, s) :: rest) c2 N i v = (c2, s.set i v) :: rest := by
          simp [histSet]
        rw [hred]
        by_cases hc : c0 = c2
        · subst hc
          rw [lookup_cons_self, if_pos rfl, lookup_cons_self]
          rfl
        · rw [lookup_cons_ne _ _ hc, if_neg hc, lookup_cons_ne _ _ hc]
      · have hred : histSet ((c2, s) :: rest) c N i v = (c2, s) :: histSet rest c N i v := by
          simp [histSet, hc2]
        rw [hred]
        by_cases hc : c0 = c2
        · subst hc
          have hne : ¬ (c0 = c) := fun hh => hc2 (by rw [← hh])
          rw [lookup_cons_self, if_neg hne, lookup_cons_self]
        · rw [lookup_cons_ne _ _ hc, ih]
          by_cases hcc : c0 = c
          · subst hcc
            rw [if_pos rfl, if_pos rfl, lookup_cons_ne _ _ hc]
          · rw [if_neg hcc, if_neg hcc, lookup_cons_ne _ _ hc]

theorem lookup_none_of_not_mem {b : Type} (k : String) (l : List (String × b))
    (h : k ∉ l.map Prod.fst) : List.lookup k l = none := by
  induction l with
  | nil => rfl
  | cons q rest ih =>
      obtain ⟨k2, v⟩ := q
      simp only [List.map_cons, List.mem_cons] at h
      push_neg at h
      rw [lookup_cons_ne _ _ h.1]
      exact ih h.2

theorem tryCodes_spec (N i : Nat) :
    ∀ (gs : List (String × List JVal)) (codes : List (String × CodeInfo)) (hist : Histogram),
      ((gs.map Prod.fst).Nodup) →
      (∀ c l, (c, l) ∈ gs → l ≠ [] ∧ ∀ e ∈ l, ∃ d, e = JVal.obj d) →
      (tryCodes gs N i codes hist).2.2 = none ∧
      (∀ c, List.lookup c (tryCodes gs N i codes hist).2.1 =
        (match List.lookup c gs with
         | some l => some (((List.lookup c hist).getD (List.replicate N 0)).set i (l.length : Int))
         | none => List.lookup c hist)) := by
  intro gs
  induction gs with
  | nil =>
      intro codes hist _ _
      exact ⟨rfl, fun c => rfl⟩
  | cons q rest ih =>
      obtain ⟨c1, errs⟩ := q
      intro codes hist hnd hwf
      obtain ⟨hne, hobj⟩ := hwf c1 errs (by simp)
      obtain ⟨e0, errs', herrs⟩ : ∃ e0 errs', errs = e0 :: errs' := by
        cases errs with
        | nil => exact absurd rfl hne
        | cons e0 errs' => exact ⟨e0, errs', rfl⟩
      obtain ⟨d0, hd0⟩ := hobj e0 (by rw [herrs]; simp)
      have hred : tryCodes ((c1, errs) :: rest) N i codes hist =
          tryCodes rest N i
            (pyDictSet codes c1
              { count := (errs.length : Int),
                message := (List.lookup "msg" d0).getD (.str "Unknown error"),
                level := (List.lookup "level" d0).getD (.str "Error") })
            (histSet hist c1 N i (errs.length : Int)) := by
        rw [tryCodes]
        rw [show errs.head? = some e0 from by rw [herrs]; rfl, hd0]
        rfl
      rw [hred]
      have hndr : (rest.map Prod.fst).Nodup := (List.nodup_cons.mp (by simpa using hnd)).2
      have hc1r : c1 ∉ rest.map Prod.fst := (List.nodup_cons.mp (by simpa using hnd)).1
      have hwfr : ∀ c l, (c, l) ∈ rest → l ≠ [] ∧ ∀ e ∈ l, ∃ d, e = JVal.obj d :=
        fun c l hm => hwf c l (List.mem_cons_of_mem _ hm)
      obtain ⟨ihnone, ihchar⟩ := ih _ (histSet hist c1 N i (errs.length : Int)) hndr hwfr
      refine ⟨ihnone, ?_⟩
      intro c
      rw [ihchar c]
      by_cases hc : c = c1
      · subst hc
        rw [lookup_none_of_not_mem c rest hc1r, lookup_cons_self,
          lookup_histSet]
        simp
      · rw [lookup_cons_ne _ _ hc, lookup_histSet, if_neg hc]

/-- On the failure path, when the groups are well-formed (non-empty, made
of records), the `try` block completes and the histogram update is exactly:
each code present in this iteration's groups gets its series (a fresh
`[0] * N` when new) written with the group size at index `i`; every other
series is untouched. -/
theorem extractCodes_hist_fail (res : CompilationResultM) (N i : Nat) (hist : Histogram)
    (hres : res.is_successful = false)
    (hnd : ((res.grouped.getD []).map Prod.fst).Nodup)
    (hwf : ∀ c l, (c, l) ∈ (res.grouped.getD []) → l ≠ [] ∧ ∀ e ∈ l, ∃ d, e = JVal.obj d) :
    ∀ c, List.lookup c (extractCodes res N i hist).2 =
      (match List.lookup c (res.grouped.getD []) with
       | some l => some (((List.lookup c hist).getD (List.replicate N 0)).set i (l.length : Int))
       | none => List.lookup c hist) := by
  intro c
  obtain ⟨hnone, hchar⟩ := tryCodes_spec N i (res.grouped.getD []) [] hist hnd hwf
  rw [extractCodes, if_neg (by rw [hres]; exact Bool.false_ne_true)]
  rcases htc : tryCodes (res.grouped.getD []) N i [] hist with ⟨codes, hist2, oerr⟩
  rw [htc] at hnone hchar
  simp only at hnone
  subst hnone
  simpa using hchar c

/-- Whether every compile attempt up to and including iteration `j`
reported failure — the condition for iteration `j` to execute and to take
the failure branch (the loop breaks right after the first success). -/
def prevAllFailed (gen : Nat → String) (compile : String → CompilationResultM) (j : Nat) : Bool :=
  (List.range (j + 1)).all fun j2 => !(compile (gen j2)).is_successful

/-- The count the final histogram should show for code `c` at iteration
`j`: the size of the code's group in that iteration when the iteration
runs, fails, and reports the code; `0` everywhere else (iteration never
reached, successful, or code absent). -/
def contrib (gen : Nat → String) (compile : String → CompilationResultM)
    (c : String) (j : Nat) : Int :=
  if prevAllFailed gen compile j then
    match List.lookup c ((compile (gen j)).grouped.getD []) with
    | some l => (l.length : Int)
    | none => 0
  else 0

theorem contrib_zero_of_success (gen : Nat → String) (compile : String → CompilationResultM)
    {c : String} {i j : Nat} (hsucc : (compile (gen i)).is_successful = true) (hij : i ≤ j) :
    contrib gen compile c j = 0 := by
  rw [contrib, if_neg]
  intro h
  have h2 := (List.all_eq_true.mp h) i (List.mem_range.mpr (by omega))
  rw [hsucc] at h2
  simp at h2

theorem prevAllFailed_true (gen : Nat → String) (compile : String → CompilationResultM)
    {j : Nat} (h : ∀ j2, j2 ≤ j → (compile (gen j2)).is_successful = false) :
    prevAllFailed gen compile j = true := by
  rw [prevAllFailed, List.all_eq_true]
  intro j2 hj2
  rw [h j2 (by exact Nat.lt_succ_iff.mp (List.mem_range.mp hj2))]
  rfl

theorem set_map_range (N i : Nat) (f g : Nat → Int) (v : Int)
    (hagree : ∀ j, j < N → j ≠ i → f j = g j) (hv : v = g i) :
    ((List.range N).map f).set i v = (List.range N).map g := by
  apply List.ext_getElem
  · simp
  · intro j hj1 hj2
    have hjN : j < N := by simpa using hj2
    rw [List.getElem_set, List.getElem_map, List.getElem_map, List.getElem_range]
    by_cases hij : i = j
    · rw [if_pos hij, hv, hij]
    · rw [if_neg hij]
      exact hagree j hjN (fun hh => hij hh.symm)

theorem driverGo_hist_inv (gen : Nat → String) (compile : String → CompilationResultM)
    (N : Nat) (c : String)
    (hwfall : ∀ j, (((compile (gen j)).grouped.getD []).map Prod.fst).Nodup ∧
      ∀ c2 l, (c2, l) ∈ ((compile (gen j)).grouped.getD []) →
        l ≠ [] ∧ ∀ e ∈ l, ∃ d, e = JVal.obj d) :
    ∀ (k i : Nat) (st : DriverSt), i + k = N →
      (∀ j, j < i → (compile (gen j)).is_successful = false) →
      ((List.lookup c st.histogram = none ∧
          ∀ j, j < i → contrib gen compile c j = 0) ∨
        List.lookup c st.histogram =
          some ((List.range N).map fun j => if j < i then contrib gen compile c j else 0)) →
      ((List.lookup c (driverGo gen compile N k i st).histogram = none ∧
          ∀ j, j < N → contrib gen compile c j = 0) ∨
        List.lookup c (driverGo gen compile N k i st).histogram =
          some ((List.range N).map (contrib gen compile c))) := by
  intro k
  induction k with
  | zero =>
      intro i st hiN _ hinv
      rcases hinv with ⟨hn, hz⟩ | hsome
      · exact Or.inl ⟨hn, fun j hj => hz j (by omega)⟩
      · refine Or.inr ?_
        rw [show driverGo gen compile N 0 i st = st from rfl, hsome]
        congr 1
        apply List.map_congr_left
        intro j hj
        rw [if_pos (by have := List.mem_range.mp hj; omega)]
  | succ k ih =>
      intro i st hiN hfail hinv
      have hiltN : i < N := by omega
      cases hs : (compile (gen i)).is_successful with
      | true =>
          have hbrk : (driverStep gen compile N i st).2 = true := hs
          have hred : driverGo gen compile N (k + 1) i st = (driverStep gen compile N i st).1 := by
            rw [driverGo, hbrk]
            simp
          have hh : (driverStep gen compile N i st).1.histogram = st.histogram := by
            show (extractCodes (compile (gen i)) N i st.histogram).2 = st.histogram
            rw [extractCodes, if_pos hs]
          rw [hred, hh]
          rcases hinv with ⟨hn, hz⟩ | hsome
          · refine Or.inl ⟨hn, ?_⟩
            intro j hj
            rcases Nat.lt_or_ge j i with hji | hji
            · exact hz j hji
            · exact contrib_zero_of_success gen compile hs hji
          · refine Or.inr ?_
            rw [hsome]
            congr 1
            apply List.map_congr_left
            intro j _
            by_cases hji : j < i
            · rw [if_pos hji]
            · rw [if_neg hji]
              exact (contrib_zero_of_success gen compile hs (Nat.le_of_not_lt hji)).symm
      | false =>
          have hbrk : (driverStep gen compile N i st).2 = false := hs
          have hred : driverGo gen compile N (k + 1) i st =
              driverGo gen compile N k (i + 1) (driverStep gen compile N i st).1 := by
            rw [driverGo, hbrk]
            simp
          rw [hred]
          have hh : (driverStep gen compile N i st).1.histogram =
              (extractCodes (compile (gen i)) N i st.histogram).2 := rfl
          have hpf : prevAllFailed gen compile i = true := by
            apply prevAllFailed_true
            intro j2 hj2
            rcases Nat.lt_or_ge j2 i with hj | hj
            · exact hfail j2 hj
            · rw [Nat.le_antisymm hj2 hj]
              exact hs
          have hchar := extractCodes_hist_fail (compile (gen i)) N i st.histogram hs
            (hwfall i).1 (hwfall i).2 c
          have hcontr : contrib gen compile c i =
              (match List.lookup c ((compile (gen i)).grouped.getD []) with
               | some l => (l.length : Int)
               | none => 0) := by
            rw [contrib, if_pos hpf]
          have hfail2 : ∀ j, j < i + 1 → (compile (gen j)).is_successful = false := by
            intro j hj
            rcases Nat.lt_or_ge j i with hji | hji
            · exact hfail j hji
            · rw [Nat.le_antisymm (Nat.lt_succ_iff.mp hj) hji]
              exact hs
          apply ih (i + 1) (driverStep gen compile N i st).1 (by omega) hfail2
          rw [hh]
          cases hg : List.lookup c ((compile (gen i)).grouped.getD []) with
          | some l =>
              refine Or.inr ?_
              have hold : (List.lookup c st.histogram).getD (List.replicate N 0) =
                  (List.range N).map (fun j => if j < i then contrib gen compile c j else 0) := by
                rcases hinv with ⟨hn, hz⟩ | hsome
                · rw [hn]
                  show List.replicate N (0 : Int) = _
                  have hc0 : List.replicate N (0 : Int) =
                      (List.range N).map (fun _ => (0 : Int)) := by
                    rw [List.map_const', List.length_range]
                  rw [hc0]
                  apply List.map_congr_left
                  intro j _
                  by_cases hji : j < i
                  · rw [if_pos hji, hz j hji]
                  · rw [if_neg hji]
                · rw [hsome]
                  rfl
              have hchar2 : List.lookup c (extractCodes (compile (gen i)) N i st.histogram).2 =
                  some ((((List.range N).map
                    (fun j => if j < i then contrib gen compile c j else 0)).set i
                      (l.length : Int))) := by
                rw [hchar, hg, hold]
              rw [hchar2]
              congr 1
              apply set_map_range
              · intro j _ hji
                by_cases hjlt : j < i
                · rw [if_pos hjlt, if_pos (by omega)]
                · rw [if_neg hjlt, if_neg (by omega)]
              · rw [if_pos (Nat.lt_succ_self i), hcontr, hg]
          | none =>
              have hci : contrib gen compile c i = 0 := by
                rw [hcontr, hg]
              have hchar2 : List.lookup c (extractCodes (compile (gen i)) N i st.histogram).2 =
                  List.lookup c st.histogram := by
                rw [hchar, hg]
              rw [hchar2]
              rcases hinv with ⟨hn, hz⟩ | hsome
              · refine Or.inl ⟨hn, ?_⟩
                intro j hj
                rcases Nat.lt_or_ge j i with hji | hji
                · exact hz j hji
                · rw [Nat.le_antisymm (Nat.lt_succ_iff.mp hj) hji]
                  exact hci
              · refine Or.inr ?_
                rw [hsome]
                congr 1
                apply List.map_congr_left
                intro j _
                by_cases hji : j < i
                · rw [if_pos hji, if_pos (by omega)]
                · rw [if_neg hji]
                  by_cases hji2 : j < i + 1
                  · rw [if_pos hji2, Nat.le_antisymm (Nat.lt_succ_iff.mp hji2)
                      (Nat.le_of_not_lt hji), hci]
                  · rw [if_neg hji2]

/-- C6: in the cross-iteration ledger (`error_histogram`, updated at
`main.py` lines 351-354), every code present at the end of a run maps to a
series of length exactly `max_iterations` covering the whole run: entry `j`
is the code's group size in iteration `j` when that iteration ran, failed
and reported the code, and `0` everywhere else — iterations where the code
was absent, iterations after a successful break, and iterations never
reached. In particular a code appearing only in iteration 2 of a
3-iteration run has the padded series `[0, n, 0]`, never a 1-element
series. (The well-formedness hypotheses say the compiler collaborator's
grouped errors have distinct keys and non-empty groups of records, which
`collect_errors` guarantees.) -/
theorem c6_ledger_series_padded (gen : Nat → String) (compile : String → CompilationResultM)
    (N : Nat) (c : String) (series : List Int)
    (hwfall : ∀ j, (((compile (gen j)).grouped.getD []).map Prod.fst).Nodup ∧
      ∀ c2 l, (c2, l) ∈ ((compile (gen j)).grouped.getD []) →
        l ≠ [] ∧ ∀ e ∈ l, ∃ d, e = JVal.obj d)
    (hlook : List.lookup c (iterative_evaluation gen compile N).histogram = some series) :
    series.length = N ∧ series = (List.range N).map (contrib gen compile c) := by
  have hmain := driverGo_hist_inv gen compile N c hwfall N 0 initSt (by omega)
    (fun j hj => absurd hj (Nat.not_lt_zero j))
    (Or.inl ⟨rfl, fun j hj => absurd hj (Nat.not_lt_zero j)⟩)
  rcases hmain with ⟨hn, _⟩ | hsome
  · rw [iterative_evaluation] at hlook
    rw [hlook] at hn
    exact Option.noConfusion hn
  · rw [iterative_evaluation] at hlook
    rw [hlook] at hsome
    have hser := Option.some.inj hsome
    refine ⟨?_, hser⟩
    rw [hser]
    simp

/-- Generation collaborator for the C6 scenario: the iteration index as
the candidate source text. -/
def c6gen (i : Nat) : String := toString i

/-- Compiler collaborator for the C6 scenario: every iteration fails;
only iteration 1 (the second of three) reports the code `"E05001"`, with a
group of two records. -/
def c6compile (s : String) : CompilationResultM :=
  if s = c6gen 1 then
    { is_successful := false, status_message := "failed", verbose_output := "",
      stats := [("errors", 2)], grouped := some [("E05001", [nbeRec, nbeRec])] }
  else
    { is_successful := false, status_message := "failed", verbose_output := "",
      stats := [("errors", 0)], grouped := some [] }

theorem c6_ledger_series_padded_witness :
    List.lookup ("E05001") (iterative_evaluation c6gen c6compile 3).histogram =
      some [0, 2, 0] ∧
    ([(0 : Int), 2, 0].length = 3 ∧
      [(0 : Int), 2, 0] = (List.range 3).map (contrib c6gen c6compile ("E05001"))) := by
  refine ⟨by decide, ?_⟩
  apply c6_ledger_series_padded c6gen c6compile 3 ("E05001") [0, 2, 0]
  · intro j
    by_cases h : c6gen j = c6gen 1
    · constructor
      · rw [show c6compile (c6gen j) = c6compile (c6gen 1) from by rw [h]]
        decide
      · intro c2 l hm
        rw [show c6compile (c6gen j) = c6compile (c6gen 1) from by rw [h]] at hm
        have hm2 : (c2, l) ∈ [(("E05001" : String), [nbeRec, nbeRec])] := hm
        rw [List.mem_singleton] at hm2
        have hc2 : c2 = "E05001" := congrArg Prod.fst hm2
        have hl : l = [nbeRec, nbeRec] := congrArg Prod.snd hm2
        refine ⟨by rw [hl]; exact List.cons_ne_nil _ _, ?_⟩
        intro e he
        rw [hl] at he
        have he2 : e = nbeRec ∨ e = nbeRec := by
          rcases List.mem_cons.mp he with h1 | h1
          · exact Or.inl h1
          · exact Or.inr (List.mem_singleton.mp h1)
        refine ⟨[("level", .str "NonblockingError"), ("category", .int 5), ("code", .int 1),
          ("msg", .str "ability constraint not satisfied")], ?_⟩
        rcases he2 with h1 | h1 <;> rw [h1] <;> rfl
    · constructor
      · rw [show c6compile (c6gen j) =
            { is_successful := false, status_message := "failed", verbose_output := "",
              stats := [("errors", 0)], grouped := some [] } from by
          rw [c6compile, if_neg h]]
        decide
      · intro c2 l hm
        rw [show c6compile (c6gen j) =
            { is_successful := false, status_message := "failed", verbose_output := "",
              stats := [("errors", 0)], grouped := some [] } from by
          rw [c6compile, if_neg h]] at hm
        exact absurd hm (List.not_mem_nil _)
  · decide

/-- A sample Warning record (category 4, code 2) for the C10 scenario. -/
def c10warnRec : JVal :=
  .obj [("level", .str "Warning"), ("category", .int 4), ("code", .int 2),
        ("msg", .str "unneeded return")]

/-- The C10 payload: two NonblockingErrors and one Warning. -/
def c10es : List JVal := [nbeRec, nbeRec, c10warnRec]

/-- The grouping of the C10 payload. -/
def c10g : Grouping := [("E05001", [nbeRec, nbeRec]), ("W04002", [c10warnRec])]

/-- The stats dictionary of the C10 scenario. -/
def c10st : List (String × Int) :=
  [("errors", 3), ("compiler_warnings", 1), ("linter_warnings", 0)]

theorem c10_stats_count_all_severities_witness :
    computeStats c10g = .ok c10st ∧
    groupAll c10es = .ok c10g ∧
    List.lookup "linter_warnings" c10st = some 0 ∧
    List.lookup "errors" c10st = some ((c10es.length : Int)) :=
  ⟨by rfl, by rfl, (c10_stats_count_all_severities c10g c10st (by rfl)).1,
   (c10_stats_count_all_severities c10g c10st (by rfl)).2.2.1 c10es (by rfl)⟩
